import Mathlib

/-!
# rxjs-playground: `MySubscription`, `MySubscriber`, `MyObservable`, `MyFrom`

A shallow embedding of `src/util/my-observable.js`, `src/util/my-observable-error.js`,
`src/util/util.js` and `src/util/my-from.js`.

JavaScript objects are mutable; here every method takes the receiver's state and the trace of
callback invocations made so far, and returns an `Outcome`: the state afterwards, the extended
trace, and either the returned value or the thrown exception.  State changes made before an
exception is thrown are kept, as in JavaScript.

Callbacks supplied by the consumer (observer handlers, teardown actions, finalize callbacks) are
the environment of the program.  They are described by data: which trace entry they leave, whether
they call `unsubscribe()` on the subscriber, and whether they throw.
-/

namespace RxPlayground

/-! ## Values and the trace -/

/-- JavaScript values that flow through a stream or are thrown.  `num n` is the number `n`
(a safe integer), `typeError` a `TypeError` instance and `unSubscriptionError` an instance of
`UnSubscriptionError`, of which only the composed message is stored: the constructor of
`my-observable-error.js` passes the message to `Error` and assigns `name`, nothing else. -/
inductive Value where
  | undefined
  | num (n : Nat)
  | str (s : String)
  | typeError (message : String)
  | unSubscriptionError (message : String)
  deriving DecidableEq, Repr

/-- One observable effect: a handler of the consumer's observer was invoked, or a teardown or
finalize callback with the given tag was run. -/
inductive Event where
  | next (value : Value)
  | error (err : Value)
  | complete
  | ran (id : Nat)
  deriving DecidableEq, Repr

/-- Outcome of a call on a receiver of type `σ`: `result` is `.ok a` when the call returned `a`
and `.error e` when it threw `e`. -/
structure Outcome (σ α : Type) where
  state : σ
  log : List Event
  result : Except Value α

/-- Whether the call threw. -/
def Outcome.threw {σ α : Type} (o : Outcome σ α) : Option Value :=
  match o.result with
  | .ok _ => none
  | .error e => some e

/-! ## `my-observable-error.js` -/

/-- The text `String(v)` of a value, as used for the elements of `errors.toString()`. -/
def Value.text : Value → String
  | .undefined => "undefined"
  | .num n => toString n
  | .str s => s
  | .typeError m => if m = "" then "TypeError" else "TypeError: " ++ m
  | .unSubscriptionError m => if m = "" then "UnSubscriptionError" else "UnSubscriptionError: " ++ m

/-- The text of `errors.toString()`: the elements joined by commas, `undefined` rendered as the
empty string (`Array.prototype.join`). -/
def arrayToString (errors : List Value) : String :=
  ",".intercalate (errors.map fun v => match v with
    | .undefined => ""
    | w => w.text)

/-- The constructor `new UnSubscriptionError(errors)`: the message lists, for each index `i`,
`i + 1` followed by the text of the whole array. -/
def UnSubscriptionError.new (errors : List Value) : Value :=
  .unSubscriptionError
    ("sybscription err: " ++
      "\n  ".intercalate ((List.range errors.length).map fun i =>
        toString (i + 1) ++ ") " ++ arrayToString errors))

/-- The test `e instanceof UnSubscriptionError`. -/
def Value.instanceofUnSubscriptionError : Value → Bool
  | .unSubscriptionError _ => true
  | _ => false

/-- The property read `e.errors`: `none` stands for `undefined`.  No value carries the property,
since the constructor of `UnSubscriptionError` never assigns it. -/
def Value.errors (_e : Value) : Option (List Value) := none

/-- The expression `e instanceof UnSubscriptionError ? e.errors : [e]`. -/
def Value.caughtErrors (e : Value) : Option (List Value) :=
  if e.instanceofUnSubscriptionError then e.errors else some [e]

/-- The `TypeError` raised by spreading `undefined` in `errors.push(...undefined)`. -/
def spreadTypeError : Value := .typeError "undefined is not iterable"

/-! ## `MySubscription` -/

/-- A callback of the environment taking no argument: running it leaves `Event.ran id` in the
trace and then throws `throws`, if any. -/
structure Action where
  id : Nat
  throws : Option Value := none
  deriving DecidableEq, Repr

/-- An argument of `add` or a member of `#finalizers`: a function, an object with an
`unsubscribe()` method, or the subscription itself. -/
inductive Teardown where
  | fn (a : Action)
  | unsubscribable (a : Action)
  | self
  deriving DecidableEq, Repr

/-- Fields of `MySubscription`.  `initialTeardown` is `none` when the field does not hold a
function; `finalizers` is `none` when `#finalizers` is `null`. -/
structure MySubscription where
  closed : Bool := false
  initialTeardown : Option Action := none
  finalizers : Option (List Teardown) := none
  deriving DecidableEq, Repr

/-- Running a callback. -/
def Action.run (a : Action) (log : List Event) : List Event × Option Value :=
  (log ++ [Event.ran a.id], a.throws)

/-- The expression `isFunction(finalizer) ? finalizer() : finalizer.unsubscribe()` evaluated while
the receiver is closed: on the receiver itself `unsubscribe()` returns at once. -/
def execTeardown : Teardown → List Event → List Event × Option Value
  | .fn a, log => a.run log
  | .unsubscribable a, log => a.run log
  | .self, log => (log, none)

/-- The `for (const finalizer of finalizers)` loop of `unsubscribe`.  `errors` is the local
variable of that name (`none` for `undefined`).  The loop is left early only when the `catch`
block itself throws. -/
def sweep : List Teardown → Option (List Value) → List Event →
    List Event × Except Value (Option (List Value))
  | [], errors, log => (log, .ok errors)
  | f :: fs, errors, log =>
    match execTeardown f log with
    | (log1, none) => sweep fs errors log1
    | (log1, some e) =>
      match e.caughtErrors with
      | none => (log1, .error spreadTypeError)
      | some es => sweep fs (some (errors.getD [] ++ es)) log1

/-- The tail of `unsubscribe`: `if (errors) throw new UnSubscriptionError(errors)`. -/
def throwIfErrors (s : MySubscription) (log : List Event) (errors : Option (List Value)) :
    Outcome MySubscription Unit :=
  match errors with
  | none => ⟨s, log, .ok ()⟩
  | some es => ⟨s, log, .error (UnSubscriptionError.new es)⟩

/-- The try block around `this.initialTeardown()`. -/
def runInitialTeardown (t : Option Action) (log : List Event) :
    List Event × Option (List Value) :=
  match t with
  | none => (log, none)
  | some a =>
    match a.run log with
    | (log1, none) => (log1, none)
    | (log1, some e) => (log1, e.caughtErrors)

/-- Method `MySubscription.unsubscribe`. -/
def MySubscription.unsubscribe (s : MySubscription) (log : List Event) :
    Outcome MySubscription Unit :=
  if s.closed then ⟨s, log, .ok ()⟩
  else
    let s1 := { s with closed := true }
    match runInitialTeardown s1.initialTeardown log with
    | (log1, errors1) =>
      match s1.finalizers with
      | none => throwIfErrors s1 log1 errors1
      | some fs =>
        let s2 := { s1 with finalizers := none }
        match sweep fs errors1 log1 with
        | (log2, .error t) => ⟨s2, log2, .error t⟩
        | (log2, .ok errors2) => throwIfErrors s2 log2 errors2

/-- Method `MySubscription.add`.  The argument is `none` for a falsy `teardown`.  Nothing is
stored in `#finalizers` on any path. -/
def MySubscription.add (s : MySubscription) (teardown : Option Teardown) (log : List Event) :
    Outcome MySubscription Unit :=
  match teardown with
  | none => ⟨s, log, .ok ()⟩
  | some t =>
    if t = Teardown.self ∨ !s.closed then ⟨s, log, .ok ()⟩
    else
      match execTeardown t log with
      | (log1, none) => ⟨s, log1, .ok ()⟩
      | (log1, some e) => ⟨s, log1, .error e⟩

/-- The constructor `new MySubscription(initialTeardown)`. -/
def MySubscription.new (initialTeardown : Option Action) : MySubscription :=
  { closed := false, initialTeardown := initialTeardown, finalizers := none }

/-- The static `MySubscription.EMPTY`. -/
def MySubscription.EMPTY : MySubscription :=
  { MySubscription.new none with closed := true }

/-! ## `ComsumerObserver` and `MySubscriber` -/

/-- What a handler of the consumer does once invoked, after leaving its trace entry: it may call
`unsubscribe()` on the subscriber it is attached to, and it may throw. -/
structure Reaction where
  unsubscribes : Bool := false
  throws : Option Value := none
  deriving DecidableEq, Repr

/-- The object `partialObserver`: each handler is optional.  A handler is given by its reaction
to the value it receives. -/
structure PartialObserver where
  next : Option (Value → Reaction) := none
  error : Option (Value → Reaction) := none
  complete : Option Reaction := none

/-- Class `ComsumerObserver`. -/
structure ComsumerObserver where
  partialObserver : PartialObserver

/-- Fields of `MySubscriber`.  The destination is the `ComsumerObserver` built by
`#createSaveObserver`, which is what the constructor stores for every destination that is not
itself a `MySubscriber`. -/
structure MySubscriber extends MySubscription where
  isStopped : Bool := false
  onFinalize : Option Action := none
  destination : ComsumerObserver

/-- The call `this.#onFinalize?.()`. -/
def callOnFinalize (s : MySubscriber) (log : List Event) : Outcome MySubscriber Unit :=
  match s.onFinalize with
  | none => ⟨s, log, .ok ()⟩
  | some a =>
    match a.run log with
    | (log1, none) => ⟨s, log1, .ok ()⟩
    | (log1, some e) => ⟨s, log1, .error e⟩

/-- Method `MySubscriber.unsubscribe`: the body runs only when `closed` is already true. -/
def MySubscriber.unsubscribe (s : MySubscriber) (log : List Event) : Outcome MySubscriber Unit :=
  if s.closed then
    let s1 := { s with isStopped := true }
    let r := s1.toMySubscription.unsubscribe log
    let s2 := { s1 with toMySubscription := r.state }
    match r.result with
    | .error e => ⟨s2, r.log, .error e⟩
    | .ok _ => callOnFinalize s2 r.log
  else ⟨s, log, .ok ()⟩

/-- Method `add`, inherited from `MySubscription`. -/
def MySubscriber.add (s : MySubscriber) (teardown : Option Teardown) (log : List Event) :
    Outcome MySubscriber Unit :=
  let r := s.toMySubscription.add teardown log
  ⟨{ s with toMySubscription := r.state }, r.log, r.result⟩

/-- A handler body running on the subscriber `s`: the handler does not catch what
`unsubscribe()` throws. -/
def Reaction.run (r : Reaction) (s : MySubscriber) (log : List Event) :
    Outcome MySubscriber Unit :=
  let o : Outcome MySubscriber Unit := if r.unsubscribes then s.unsubscribe log else ⟨s, log, .ok ()⟩
  match o.result with
  | .error _ => o
  | .ok _ =>
    match r.throws with
    | none => o
    | some x => ⟨o.state, o.log, .error x⟩

/-- Method `ComsumerObserver.next`: `try { partialObserver.next(value) } catch (e) { throw e }`. -/
def ComsumerObserver.next (c : ComsumerObserver) (value : Value) (s : MySubscriber)
    (log : List Event) : Outcome MySubscriber Unit :=
  match c.partialObserver.next with
  | some h => (h value).run s (log ++ [Event.next value])
  | none => ⟨s, log, .ok ()⟩

/-- Method `ComsumerObserver.error`: without a handler the error is thrown. -/
def ComsumerObserver.error (c : ComsumerObserver) (err : Value) (s : MySubscriber)
    (log : List Event) : Outcome MySubscriber Unit :=
  match c.partialObserver.error with
  | some h => (h err).run s (log ++ [Event.error err])
  | none => ⟨s, log, .error err⟩

/-- Method `ComsumerObserver.complete`. -/
def ComsumerObserver.complete (c : ComsumerObserver) (s : MySubscriber) (log : List Event) :
    Outcome MySubscriber Unit :=
  match c.partialObserver.complete with
  | some h => h.run s (log ++ [Event.complete])
  | none => ⟨s, log, .ok ()⟩

/-- The statement `try { body } finally { this.unsubscribe() }`, given the outcome of `body`:
an exception thrown by the `finally` block replaces the pending one. -/
def finallyUnsubscribe (body : Outcome MySubscriber Unit) : Outcome MySubscriber Unit :=
  let r := body.state.unsubscribe body.log
  match r.result with
  | .error _ => r
  | .ok _ => ⟨r.state, r.log, body.result⟩

/-- Method `MySubscriber.next`. -/
def MySubscriber.next (s : MySubscriber) (value : Value) (log : List Event) :
    Outcome MySubscriber Unit :=
  if !s.isStopped then s.destination.next value s log else ⟨s, log, .ok ()⟩

/-- Method `MySubscriber.error`. -/
def MySubscriber.error (s : MySubscriber) (err : Value) (log : List Event) :
    Outcome MySubscriber Unit :=
  if !s.isStopped then
    let s1 := { s with isStopped := true }
    finallyUnsubscribe (s1.destination.error err s1 log)
  else ⟨s, log, .ok ()⟩

/-- Method `MySubscriber.complete`. -/
def MySubscriber.complete (s : MySubscriber) (log : List Event) : Outcome MySubscriber Unit :=
  if !s.isStopped then
    let s1 := { s with isStopped := true }
    finallyUnsubscribe (s1.destination.complete s1 log)
  else ⟨s, log, .ok ()⟩

/-- The first argument of `new MySubscriber(destination)` when it is not a `MySubscriber`: an
observer object, a bare `next` function, or nothing.  The observer object is a plain object of
callbacks: it has no `add` and `unsubscribe` methods, so the constructor registers nothing on
it. -/
inductive ObserverOrNext where
  | observer (p : PartialObserver)
  | next (f : Value → Reaction)
  | nothing

/-- Method `#createSaveObserver`. -/
def createSaveObserver : ObserverOrNext → ComsumerObserver
  | .observer p => ⟨p⟩
  | .next f => ⟨{ next := some f }⟩
  | .nothing => ⟨{ next := none }⟩

/-- The constructor `new MySubscriber(destination, overrides)`; `finalize` is
`overrides?.finalize ?? null`. -/
def MySubscriber.new (destination : ObserverOrNext) (finalize : Option Action) : MySubscriber :=
  { toMySubscription := MySubscription.new none
    isStopped := false
    onFinalize := finalize
    destination := createSaveObserver destination }

/-! ## `MyObservable` -/

/-- A call a subscribe function makes on the subscriber it receives. -/
inductive Cmd where
  | next (value : Value)
  | error (err : Value)
  | complete
  | unsubscribe
  deriving DecidableEq, Repr

/-- Running one call. -/
def Cmd.run : Cmd → MySubscriber → List Event → Outcome MySubscriber Unit
  | .next v, s, log => s.next v log
  | .error e, s, log => s.error e log
  | .complete, s, log => s.complete log
  | .unsubscribe, s, log => s.unsubscribe log

/-- Running consecutive statements: the first one that throws ends the sequence. -/
def runCmds : List Cmd → MySubscriber → List Event → Outcome MySubscriber Unit
  | [], s, log => ⟨s, log, .ok ()⟩
  | c :: cs, s, log =>
    let o := c.run s log
    match o.result with
    | .error _ => o
    | .ok _ => runCmds cs o.state o.log

/-- A subscribe function written by a user of `MyObservable`: a straight-line sequence of calls
on the subscriber, none of them guarded by `try`, after which the function throws `throws` or,
if that is `none`, returns `returns`. -/
structure Script where
  body : List Cmd
  throws : Option Value := none
  returns : Option Teardown := none
  deriving DecidableEq, Repr

/-- The type of the field `#subscribe`: the function receives the subscriber and returns a
teardown, or `none` for `undefined`. -/
abbrev SubscribeFn := MySubscriber → List Event → Outcome MySubscriber (Option Teardown)

/-- The subscribe function a script denotes. -/
def Script.run (c : Script) : SubscribeFn := fun s log =>
  let o := runCmds c.body s log
  match o.result with
  | .error e => ⟨o.state, o.log, .error e⟩
  | .ok _ =>
    match c.throws with
    | some x => ⟨o.state, o.log, .error x⟩
    | none => ⟨o.state, o.log, .ok c.returns⟩

/-- Class `MyObservable`: the holder of `#subscribe`.  A subscribe function may hand callbacks
to a promise or start an asynchronous loop; `later` is what those callbacks do to the subscriber
when they run, in later turns, and it does nothing for a subscribe function that registers
none. -/
structure MyObservable where
  subscribeFn : SubscribeFn
  later : MySubscriber → List Event → Outcome MySubscriber Unit := fun s log => ⟨s, log, .ok ()⟩

/-- The expression `new MyObservable(subscribe)` for a scripted subscribe function. -/
def MyObservable.ofScript (c : Script) : MyObservable := { subscribeFn := c.run }

/-- Method `#trySubscribe`. -/
def MyObservable.trySubscribe (o : MyObservable) (sink : MySubscriber) (log : List Event) :
    Outcome MySubscriber (Option Teardown) :=
  let r := o.subscribeFn sink log
  match r.result with
  | .ok _ => r
  | .error e =>
    let r2 := r.state.error e r.log
    match r2.result with
    | .error e2 => ⟨r2.state, r2.log, .error e2⟩
    | .ok _ => ⟨r2.state, r2.log, .ok none⟩

/-- The argument of `subscribe(observer)`. -/
inductive ObserverArg where
  | subscriber (s : MySubscriber)
  | other (d : ObserverOrNext)

/-- The expression `observer instanceof MySubscriber ? observer : new MySubscriber(observer)`. -/
def ObserverArg.toSubscriber : ObserverArg → MySubscriber
  | .subscriber s => s
  | .other d => MySubscriber.new d none

/-- Method `MyObservable.subscribe`.  The state of the outcome is the subscriber `sub`; the
result `.ok ()` means that `sub` was returned. -/
def MyObservable.subscribe (o : MyObservable) (observer : ObserverArg) (log : List Event) :
    Outcome MySubscriber Unit :=
  let sub := observer.toSubscriber
  let r := o.trySubscribe sub log
  match r.result with
  | .error e => ⟨r.state, r.log, .error e⟩
  | .ok t => r.state.add t r.log

/-- The later turns after `subscribe` returned with the outcome `r`: the callbacks its subscribe
function registered run to their end on the subscriber. -/
def MyObservable.settle (o : MyObservable) (r : Outcome MySubscriber Unit) :
    Outcome MySubscriber Unit :=
  o.later r.state r.log

/-- Method `MyObservable.pipe`. -/
def MyObservable.pipe (o : MyObservable) (operations : List (MyObservable → MyObservable)) :
    MyObservable :=
  operations.foldl (fun prev fn => fn prev) o

/-! ## `util.js` and `my-from.js` -/

/-- The enumeration `ObservableInputType`. -/
inductive ObservableInputType where
  | Own
  | InteropObservable
  | ArrayLike
  | Promise
  | AsyncIterable
  | Iterable
  | ReadableStreamLike
  deriving DecidableEq, Repr

/-- The numeric value of a member of `ObservableInputType`. -/
def ObservableInputType.toNat : ObservableInputType → Nat
  | .Own => 1
  | .InteropObservable => 2
  | .ArrayLike => 3
  | .Promise => 4
  | .AsyncIterable => 5
  | .Iterable => 6
  | .ReadableStreamLike => 7

/-- What calling the interop method of an input returns: an object whose `subscribe` is a
function (given by what that function does with the subscriber), or an object without one. -/
inductive InteropTarget where
  | subscribable (c : Script)
  | notSubscribable
  deriving DecidableEq, Repr

/-- How a promise-like input settles. -/
inductive Settlement where
  | fulfilled (value : Value)
  | rejected (reason : Value)
  | pending
  deriving DecidableEq, Repr

/-- What the method `then(onFulfilled, onRejected)` of a promise-like input does.  A promise
calls the callback of its settlement in a later turn and returns a promise.  A thenable that is
not a promise may call the callback before `then` returns (`synchronous`), may then let what the
callback throws escape from `then` (`rethrows`), and may return something without a `then`
method (`chainable` false). -/
structure Thenable where
  settlement : Settlement
  synchronous : Bool := false
  rethrows : Bool := false
  chainable : Bool := true
  deriving DecidableEq, Repr

/-- What an async iterator produces: the values in order, then the end of the sequence, or the
failure `failure` if there is one.  `atEnd` is what the iterator itself runs when it ends or
fails, such as the `finally` block of a generator, and `onReturn` is its method `return()`,
called by a `for await` loop that is left early. -/
structure AsyncSource where
  values : List Value
  failure : Option Value := none
  atEnd : Option Action := none
  onReturn : Option Action := none
  deriving DecidableEq, Repr

/-- What `getReader()` of a stream returns: `read()` gives the chunks in order and then reports
the end, or rejects with `failure`; `releaseLock` is the method of that name. -/
structure Reader where
  chunks : List Value
  failure : Option Value := none
  releaseLock : Action
  deriving DecidableEq, Repr

/-- What the predicates of `util.js` and the adapters of `my-from.js` can observe of a value
that is neither `null`, `undefined` nor a `MyObservable`.  A field of type `Option` is `none`
when the property does not hold a function.  `text` is the string the value converts to;
a symbol (`isSymbol`) converts to none. -/
structure Shape where
  typeofObject : Bool := false
  isSymbol : Bool := false
  text : String := ""
  truthy : Bool := true
  callable : Bool := false
  observable : Option InteropTarget := none
  lengthIsNumber : Bool := false
  forEach : Option (List Value) := none
  thenable : Option Thenable := none
  asyncIterable : Option AsyncSource := none
  iterable : Option (List Value) := none
  getReader : Option Reader := none
  deriving DecidableEq, Repr

/-- An argument of `MyFrom`. -/
inductive Input where
  | own (o : MyObservable)
  | null
  | undefined
  | value (v : Shape)

/-- An array without holes. -/
def Shape.array (xs : List Value) : Shape :=
  { typeofObject := true, text := arrayToString xs, truthy := true, lengthIsNumber := true,
    forEach := some xs, iterable := some xs }

/-- An iterable that is not array-like, such as a `Set` or a generator object. -/
def Shape.iterableOf (xs : List Value) : Shape :=
  { typeofObject := true, text := "[object Object]", truthy := true, iterable := some xs }

/-- Function `isInteropObservable`: the property read has no optional chaining. -/
def isInteropObservable : Input → Except Value Bool
  | .own _ => .ok true
  | .null => .error (.typeError "Cannot read properties of null")
  | .undefined => .error (.typeError "Cannot read properties of undefined")
  | .value v => .ok v.observable.isSome

/-- Function `isArrayLike`, as a condition. -/
def isArrayLike : Input → Bool
  | .value v => v.truthy && v.lengthIsNumber && !v.callable
  | _ => false

/-- Function `isPromise`. -/
def isPromise : Input → Bool
  | .value v => v.thenable.isSome
  | _ => false

/-- Function `isAsyncIterable`: a `MyObservable` has the method. -/
def isAsyncIterable : Input → Bool
  | .value v => v.asyncIterable.isSome
  | .own _ => true
  | _ => false

/-- Function `isIterable`. -/
def isIterable : Input → Bool
  | .value v => v.iterable.isSome
  | _ => false

/-- Function `isReadableStreamLike`. -/
def isReadableStreamLike : Input → Bool
  | .value v => v.getReader.isSome
  | _ => false

/-- The message of the `TypeError` at the end of `getObservableInputType`, for an input that
the template literal can convert to a string. -/
def invalidInputMessage (input : Input) : String :=
  let provided : String :=
    match input with
    | .own _ => "an invalid object"
    | .null => "'null'"
    | .undefined => "'undefined'"
    | .value v => if v.typeofObject then "an invalid object" else "'" ++ v.text ++ "'"
  "You provided " ++ provided ++ " where a stream was expected." ++
    " You can provide an Observable, Promise, ReadableStream, Array, AsyncIterable, or Iterable."

/-- What the `throw` at the end of `getObservableInputType` throws: the descriptive `TypeError`,
or, for a symbol, the `TypeError` of the template literal that cannot convert it. -/
def invalidInputError (input : Input) : Value :=
  match input with
  | .value v =>
    if v.isSymbol then .typeError "Cannot convert a Symbol value to a string"
    else .typeError (invalidInputMessage input)
  | _ => .typeError (invalidInputMessage input)

/-- Function `getObservableInputType`. -/
def getObservableInputType (input : Input) : Except Value ObservableInputType :=
  match input with
  | .own _ => .ok .Own
  | _ =>
    match isInteropObservable input with
    | .error e => .error e
    | .ok true => .ok .InteropObservable
    | .ok false =>
      if isArrayLike input then .ok .ArrayLike
      else if isPromise input then .ok .Promise
      else if isAsyncIterable input then .ok .AsyncIterable
      else if isIterable input then .ok .Iterable
      else if isReadableStreamLike input then .ok .ReadableStreamLike
      else .error (invalidInputError input)

/-- Function `fromInteropObservable`. -/
def fromInteropObservable (obj : Shape) : MyObservable :=
  { subscribeFn := fun sub log =>
      match obj.observable with
      | none => ⟨sub, log, .error (.typeError "obj[Symbol.observable] is not a function")⟩
      | some (.subscribable c) => c.run sub log
      | some .notSubscribable =>
        ⟨sub, log, .error (.typeError "没有标记类型Symbol.observable")⟩ }

/-- The call `array.forEach((item) => { if (sub.closed) return; sub.next(item); })` on the
elements still to visit. -/
def forEachItem : List Value → MySubscriber → List Event → Outcome MySubscriber Unit
  | [], s, log => ⟨s, log, .ok ()⟩
  | item :: items, s, log =>
    if s.closed then forEachItem items s log
    else
      let o := s.next item log
      match o.result with
      | .error _ => o
      | .ok _ => forEachItem items o.state o.log

/-- Function `fromArrayLike`. -/
def fromArrayLike (array : Shape) : MyObservable :=
  { subscribeFn := fun sub log =>
      match array.forEach with
      | none => ⟨sub, log, .error (.typeError "array.forEach is not a function")⟩
      | some items =>
        let o := forEachItem items sub log
        match o.result with
        | .error e => ⟨o.state, o.log, .error e⟩
        | .ok _ =>
          let o2 := o.state.complete o.log
          match o2.result with
          | .error e => ⟨o2.state, o2.log, .error e⟩
          | .ok _ => ⟨o2.state, o2.log, .ok none⟩ }

/-- The first callback `fromPromise` passes to `then`. -/
def fromPromise.onFulfilled (value : Value) (sub : MySubscriber) (log : List Event) :
    Outcome MySubscriber Unit :=
  if sub.closed then ⟨sub, log, .ok ()⟩
  else
    let o := sub.next value log
    match o.result with
    | .error _ => o
    | .ok _ => o.state.complete o.log

/-- The second callback `fromPromise` passes to `then`. -/
def fromPromise.onRejected (err : Value) (sub : MySubscriber) (log : List Event) :
    Outcome MySubscriber Unit :=
  sub.error err log

/-- The callback of the settlement, run on the subscriber: what the promise does with the two
callbacks once it has settled. -/
def fromPromise.settled (promise : Settlement) (sub : MySubscriber) (log : List Event) :
    Outcome MySubscriber Unit :=
  match promise with
  | .fulfilled v => fromPromise.onFulfilled v sub log
  | .rejected e => fromPromise.onRejected e sub log
  | .pending => ⟨sub, log, .ok ()⟩

/-- The subscribe function of `fromPromise`, `promise.then(onFulfilled, onRejected).then(null,
...)`: a thenable that calls back before `then` returns runs the callback here, and the second
`then` is called on what the first returned. -/
def fromPromise.subscribeFn (promise : Shape) : SubscribeFn := fun sub log =>
  match promise.thenable with
  | none => ⟨sub, log, .error (.typeError "promise.then is not a function")⟩
  | some t =>
    let o : Outcome MySubscriber Unit :=
      if t.synchronous then fromPromise.settled t.settlement sub log else ⟨sub, log, .ok ()⟩
    match o.result, t.rethrows with
    | .error e, true => ⟨o.state, o.log, .error e⟩
    | _, _ =>
      if t.chainable then ⟨o.state, o.log, .ok none⟩
      else ⟨o.state, o.log, .error (.typeError "Cannot read properties of undefined (reading 'then')")⟩

/-- What the callbacks registered by `fromPromise` do in later turns: a promise calls the
callback of its settlement then.  What a callback throws is logged and rethrown by the callback
given to the second `then`. -/
def fromPromise.later (promise : Shape) (sub : MySubscriber) (log : List Event) :
    Outcome MySubscriber Unit :=
  match promise.thenable with
  | none => ⟨sub, log, .ok ()⟩
  | some t =>
    if t.synchronous then ⟨sub, log, .ok ()⟩ else fromPromise.settled t.settlement sub log

/-- Function `fromPromise`. -/
def fromPromise (promise : Shape) : MyObservable :=
  { subscribeFn := fromPromise.subscribeFn promise, later := fromPromise.later promise }

/-- Running a callback that may be absent. -/
def runIfPresent (a : Option Action) (log : List Event) : List Event × Option Value :=
  match a with
  | none => (log, none)
  | some act => act.run log

/-- The `for await` loop of `process` on the values the iterator still has, followed by
`subscriber.complete()`.  When the body throws, the loop calls `return()` on the iterator,
ignores what that throws and rethrows; when the body returns early, the loop calls `return()`
and throws what that throws. -/
def fromAsyncIterable.loop : List Value → AsyncSource → MySubscriber → List Event →
    Outcome MySubscriber Unit
  | [], source, s, log =>
    match runIfPresent source.atEnd log with
    | (log1, some e) => ⟨s, log1, .error e⟩
    | (log1, none) =>
      match source.failure with
      | some f => ⟨s, log1, .error f⟩
      | none => s.complete log1
  | value :: rest, source, s, log =>
    let o := s.next value log
    match o.result with
    | .error e => ⟨o.state, (runIfPresent source.onReturn o.log).1, .error e⟩
    | .ok _ =>
      if o.state.closed then
        match runIfPresent source.onReturn o.log with
        | (log1, some e) => ⟨o.state, log1, .error e⟩
        | (log1, none) => ⟨o.state, log1, .ok ()⟩
      else fromAsyncIterable.loop rest source o.state o.log

/-- Function `process` of `fromAsyncIterable`; `none` is a value without an async iterator. -/
def fromAsyncIterable.process (asyncIterable : Option AsyncSource) (subscriber : MySubscriber)
    (log : List Event) : Outcome MySubscriber Unit :=
  match asyncIterable with
  | none => ⟨subscriber, log, .error (.typeError "asyncIterable is not async iterable")⟩
  | some source => fromAsyncIterable.loop source.values source subscriber log

/-- The expression `process(asyncIterable, sub).catch(e => sub.error(e))`, run to its end in
later turns. -/
def fromAsyncIterable.settled (asyncIterable : Option AsyncSource) (sub : MySubscriber)
    (log : List Event) : Outcome MySubscriber Unit :=
  let o := fromAsyncIterable.process asyncIterable sub log
  match o.result with
  | .ok _ => o
  | .error e => o.state.error e o.log

/-- Function `fromAsyncIterable`: the subscribe function starts `process`, which reaches the
subscriber only in later turns. -/
def fromAsyncIterable (asyncIterable : Option AsyncSource) : MyObservable :=
  { subscribeFn := fun sub log => ⟨sub, log, .ok none⟩
    later := fromAsyncIterable.settled asyncIterable }

/-- The `for (const val of iterable)` loop of `fromIterable` followed by `sub.complete()`. -/
def iterate : List Value → MySubscriber → List Event → Outcome MySubscriber (Option Teardown)
  | [], s, log =>
    let o := s.complete log
    match o.result with
    | .error e => ⟨o.state, o.log, .error e⟩
    | .ok _ => ⟨o.state, o.log, .ok none⟩
  | val :: rest, s, log =>
    let o := s.next val log
    match o.result with
    | .error e => ⟨o.state, o.log, .error e⟩
    | .ok _ => if o.state.closed then ⟨o.state, o.log, .ok none⟩ else iterate rest o.state o.log

/-- Function `fromIterable`. -/
def fromIterable (iterable : Shape) : MyObservable :=
  { subscribeFn := fun sub log =>
      match iterable.iterable with
      | none => ⟨sub, log, .error (.typeError "iterable is not iterable")⟩
      | some items => iterate items sub log }

/-- The generator `readableStreamLikeToAsyncGenerator(readableStream)`, as the async iterator
it is: it yields what `read()` gives until the reader reports the end, and its `finally` block
calls `releaseLock()` when it ends, when `read()` rejects, and when the loop that consumes it
leaves early.  Without `getReader` its first step fails, before the `try`. -/
def readableStreamLikeToAsyncGenerator (reader : Option Reader) : AsyncSource :=
  match reader with
  | none =>
    { values := [], failure := some (.typeError "readableStream.getReader is not a function") }
  | some r =>
    { values := r.chunks, failure := r.failure, atEnd := some r.releaseLock,
      onReturn := some r.releaseLock }

/-- Function `fromReadableStreamLike`. -/
def fromReadableStreamLike (readableStream : Shape) : MyObservable :=
  fromAsyncIterable (some (readableStreamLikeToAsyncGenerator readableStream.getReader))

/-- Function `MyFrom`.  The last line covers the pairs that cannot arise: the classifier answers
`Own` exactly for a `MyObservable` and never classifies `null` or `undefined`. -/
def MyFrom (input : Input) : Except Value MyObservable :=
  match getObservableInputType input with
  | .error e => .error e
  | .ok type =>
    match type, input with
    | .Own, .own o => .ok o
    | .InteropObservable, .value v => .ok (fromInteropObservable v)
    | .ArrayLike, .value v => .ok (fromArrayLike v)
    | .Promise, .value v => .ok (fromPromise v)
    | .AsyncIterable, .value v => .ok (fromAsyncIterable v.asyncIterable)
    | .Iterable, .value v => .ok (fromIterable v)
    | .ReadableStreamLike, .value v => .ok (fromReadableStreamLike v)
    | _, _ => .error (.typeError "unreachable")

/-- The statement `MyFrom(input).subscribe(observer)`. -/
def subscribeFrom (input : Input) (observer : ObserverArg) (log : List Event) :
    Except Value (Outcome MySubscriber Unit) :=
  match MyFrom input with
  | .error e => .error e
  | .ok o => .ok (o.subscribe observer log)

/-! ## The async iterator of `MyObservable` -/

/-- How a call of the iterator's `next()` ended: the promise it returned was resolved with
`{ value, done: false }` or with `{ value: undefined, done: true }`, or was rejected, or the call
threw before returning a promise. -/
inductive IterResult where
  | value (v : Value)
  | done
  | rejected (reason : Value)
  | threw (e : Value)
  deriving DecidableEq, Repr

/-- The variables captured by the object `[Symbol.asyncIterator]()` returns.  A parked pull, a
pair `[resolve, reject]` in `deferreds`, is identified by the rank of the `next()` call that
created it.  `pulls` counts the `next()` calls made so far and `settled` lists the promises of
`next()` settled so far, in order of settlement; both are observations, not part of the code. -/
structure Bridge where
  subscription : Option MySubscriber := none
  hasError : Bool := false
  completed : Bool := false
  error : Value := .undefined
  values : List Value := []
  deferreds : List Nat := []
  pulls : Nat := 0
  settled : List (Nat × IterResult) := []

/-- The observer the iterator subscribes with.  Its three handlers neither throw nor call
`unsubscribe()`; what they do to the captured variables is given by `Bridge.deliver`. -/
def Bridge.observer : PartialObserver :=
  { next := some fun _ => {}, error := some fun _ => {}, complete := some {} }

/-- The `next` handler of the iterator's observer. -/
def Bridge.onNext (b : Bridge) (val : Value) : Bridge :=
  match b.deferreds with
  | id :: rest => { b with deferreds := rest, settled := b.settled ++ [(id, .value val)] }
  | [] => { b with values := b.values ++ [val] }

/-- Function `handleError`: the loop rejects every parked pull, first parked first. -/
def Bridge.handleError (b : Bridge) (err : Value) : Bridge :=
  { b with
    hasError := true
    error := err
    deferreds := []
    settled := b.settled ++ b.deferreds.map fun id => (id, IterResult.rejected err) }

/-- Function `handleComplete`: the loop resolves every parked pull, first parked first. -/
def Bridge.handleComplete (b : Bridge) : Bridge :=
  { b with
    completed := true
    deferreds := []
    settled := b.settled ++ b.deferreds.map fun id => (id, IterResult.done) }

/-- The handler invoked for an entry of the subscriber's trace. -/
def Bridge.deliver (b : Bridge) : Event → Bridge
  | .next v => b.onNext v
  | .error e => b.handleError e
  | .complete => b.handleComplete
  | .ran _ => b

/-- The part of `next()` after the subscription: the promise it returns. -/
def Bridge.pull (b : Bridge) : Bridge :=
  match b.values with
  | v :: rest =>
    { b with values := rest, pulls := b.pulls + 1, settled := b.settled ++ [(b.pulls, .value v)] }
  | [] =>
    if b.completed then
      { b with pulls := b.pulls + 1, settled := b.settled ++ [(b.pulls, .done)] }
    else if b.hasError then
      { b with pulls := b.pulls + 1, settled := b.settled ++ [(b.pulls, .rejected b.error)] }
    else
      { b with pulls := b.pulls + 1, deferreds := b.deferreds ++ [b.pulls] }

/-- Method `next` of the iterator over `source`: the first call subscribes, and what the source
emits during `subscribe` reaches the handlers before the buffer is inspected. -/
def Bridge.next (source : MyObservable) (b : Bridge) : Bridge :=
  match b.subscription with
  | some _ => b.pull
  | none =>
    let o := source.subscribe (.other (.observer Bridge.observer)) []
    let b1 := o.log.foldl Bridge.deliver b
    match o.result with
    | .ok _ => Bridge.pull { b1 with subscription := some o.state }
    | .error e => { b1 with pulls := b1.pulls + 1, settled := b1.settled ++ [(b1.pulls, .threw e)] }

/-- The statement `subscription?.unsubscribe()`: the subscriber afterwards, and what was
thrown. -/
def Bridge.unsubscribe (b : Bridge) : Bridge × Option Value :=
  match b.subscription with
  | none => (b, none)
  | some sub =>
    let o := sub.unsubscribe []
    ({ b with subscription := some o.state }, o.threw)

/-- Method `throw` of the iterator: `handleError` is called without an argument. -/
def Bridge.throw (b : Bridge) (_err : Value) : Bridge :=
  match b.unsubscribe with
  | (b1, some _) => b1
  | (b1, none) => b1.handleError .undefined

/-- Method `return` of the iterator. -/
def Bridge.return (b : Bridge) : Bridge :=
  match b.unsubscribe with
  | (b1, some _) => b1
  | (b1, none) => b1.handleComplete

/-- A later call of the source on the subscriber it was given: nothing happens before the
iterator has subscribed. -/
def Bridge.sourceCall (b : Bridge) (c : Cmd) : Bridge :=
  match b.subscription with
  | none => b
  | some sub =>
    let o := c.run sub []
    { o.log.foldl Bridge.deliver b with subscription := some o.state }

/-- What can happen to an iterator: the consumer calls `next()`, `return()` or `throw(e)`, or
the source pushes a value (`push`), completes or fails by a call on its subscriber. -/
inductive IterStep where
  | pull
  | source (c : Cmd)
  | ret
  | throw (e : Value)
  deriving DecidableEq, Repr

/-- One step of the iterator over `source`. -/
def Bridge.step (source : MyObservable) (b : Bridge) : IterStep → Bridge
  | .pull => b.next source
  | .source c => b.sourceCall c
  | .ret => b.return
  | .throw e => b.throw e

/-- A sequence of steps. -/
def Bridge.run (source : MyObservable) (steps : List IterStep) (b : Bridge) : Bridge :=
  steps.foldl (Bridge.step source) b

/-- What the handlers and methods of the iterator see, with the subscriber left out: a pushed
value, the completion or failure of the source, and the calls of the consumer. -/
inductive BridgeEvent where
  | push (v : Value)
  | complete
  | fail (e : Value)
  | pull
  | ret
  | throw (e : Value)
  deriving DecidableEq, Repr

/-- The handler or method behind an event. -/
def Bridge.handle (b : Bridge) : BridgeEvent → Bridge
  | .push v => b.onNext v
  | .complete => b.handleComplete
  | .fail e => b.handleError e
  | .pull => b.pull
  | .ret => b.return
  | .throw e => b.throw e

/-- The buffer and the queue of parked pulls are not both non-empty, and nothing is parked once
the iterator is completed or errored. -/
def Bridge.Consistent (b : Bridge) : Prop :=
  (b.values = [] ∨ b.deferreds = []) ∧ ((b.completed || b.hasError) = false ∨ b.deferreds = [])

/-! ## Vocabulary of the statements -/

/-- Whether a call is `error(e)` or `complete()`. -/
def Cmd.isTerminal : Cmd → Bool
  | .error _ => true
  | .complete => true
  | _ => false

/-- A sequence of calls made one after the other on a subscriber by a caller that goes on after
a call that threw. -/
def callAll : List Cmd → MySubscriber → List Event → MySubscriber × List Event
  | [], s, log => (s, log)
  | c :: cs, s, log => callAll cs (c.run s log).state (c.run s log).log

/-- The calls up to and including the first `error` or `complete`. -/
def upToTerminal : List Cmd → List Cmd
  | [] => []
  | c :: cs => if c.isTerminal then [c] else c :: upToTerminal cs

/-- The trace entry a call leaves when it reaches the consumer's observer: the handler of that
name is invoked if the observer has one. -/
def PartialObserver.entry (p : PartialObserver) : Cmd → List Event
  | .next v => if p.next.isSome then [Event.next v] else []
  | .error e => if p.error.isSome then [Event.error e] else []
  | .complete => if p.complete.isSome then [Event.complete] else []
  | .unsubscribe => []

/-- Whether a trace entry is a handler invocation. -/
def Event.isNotification : Event → Bool
  | .ran _ => false
  | _ => true

/-- The handler invocations of a trace. -/
def notifications (log : List Event) : List Event := log.filter Event.isNotification

/-- No handler of the observer calls `unsubscribe()`. -/
def PartialObserver.neverUnsubscribes (p : PartialObserver) : Prop :=
  (∀ h v, p.next = some h → (h v).unsubscribes = false) ∧
  (∀ h e, p.error = some h → (h e).unsubscribes = false) ∧
  (∀ h, p.complete = some h → h.unsubscribes = false)

/-- The result of a handler body that throws `throws`, if anything. -/
def thrownOr (throws : Option Value) : Except Value Unit :=
  match throws with
  | none => .ok ()
  | some x => .error x

/-- Calling `unsubscribe()` the given number of times in a row; what a call throws is caught by
the caller. -/
def unsubscribeTimes : Nat → MySubscription → List Event → MySubscription × List Event
  | 0, s, log => (s, log)
  | n + 1, s, log => unsubscribeTimes n (s.unsubscribe log).state (s.unsubscribe log).log

/-- The `next` and `complete` handlers of the observer, if any, return normally. -/
def PartialObserver.emitsSafely (p : PartialObserver) : Prop :=
  (∀ h v, p.next = some h → (h v).throws = none) ∧
  (∀ h, p.complete = some h → h.throws = none)

/-- Registering the given teardowns one after the other with `add`. -/
def addEach : List Teardown → MySubscription → List Event → MySubscription × List Event
  | [], s, log => (s, log)
  | t :: ts, s, log => addEach ts (s.add (some t) log).state (s.add (some t) log).log

deriving instance DecidableEq for Except

/-! ## Sample observers and sources -/

/-- A handler that returns normally and calls nothing. -/
def quiet : Value → Reaction := fun _ => {}

/-- An observer with the three handlers, all of them quiet. -/
def fullObserver : PartialObserver :=
  { next := some quiet, error := some quiet, complete := some {} }

/-- A `next` handler that calls `unsubscribe()` on its subscriber when it receives `k`. -/
def cancelOn (k : Value) : Value → Reaction :=
  fun v => if v = k then { unsubscribes := true } else {}

/-- A handler that throws `x` whatever it receives. -/
def throwing (x : Value) : Value → Reaction := fun _ => { throws := some x }

/-- A subscriber built beforehand, as `forEach` does, whose `next` handler cancels on `2`. -/
def cancellingSubscriber : MySubscriber :=
  MySubscriber.new (.observer { fullObserver with next := some (cancelOn (.num 2)) }) none

/-- The subscribe function of `main.spec.ts`: `next('hallo'); error('world'); complete()`. -/
def halloWorld : Script :=
  { body := [.next (.str "hallo"), .error (.str "world"), .complete] }

/-- A subscribe function that emits nothing and returns the teardown function tagged `7`. -/
def returnsTeardown : Script :=
  { body := [], returns := some (.fn { id := 7 }) }

/-- The outcome of subscribing an observer with the three handlers to that source. -/
def subscribedWithTeardown : Outcome MySubscriber Unit :=
  (MyObservable.ofScript returnsTeardown).subscribe (.other (.observer fullObserver)) []

/-- Three finalizers: the first throws `e1`, the second returns, the third throws `e3`. -/
def threeFinalizers : List Teardown :=
  [.fn { id := 1, throws := some (.str "e1") }, .fn { id := 2 },
   .fn { id := 3, throws := some (.str "e3") }]

/-- A subscribe function that emits `1` and then throws `boom`. -/
def emitsThenThrows : Script :=
  { body := [.next (.num 1)], throws := some (.str "boom") }

/-- A subscribe function that emits `1` and returns. -/
def emitsOne : Script :=
  { body := [.next (.num 1)] }

/-- An observer whose `next` handler throws `x` and whose `error` handler is quiet. -/
def throwsOnNext : PartialObserver :=
  { next := some (throwing (.str "x")), error := some quiet }

/-! ## Vocabulary of the statements on `MyFrom` and on the iterator -/

/-- What was thrown, if anything. -/
def thrownBy {α : Type} : Except Value α → Option Value
  | .ok _ => none
  | .error e => some e

/-- A string: a primitive with a numeric `length` and an iterator over its characters, and no
`forEach`.  The empty string is falsy. -/
def Shape.string (s : String) : Shape :=
  { typeofObject := false, text := s, truthy := decide (s ≠ ""), lengthIsNumber := true,
    iterable := some (s.toList.map fun c => Value.str (String.singleton c)) }

/-- A plain object with a numeric `length` and indexed properties, such as
`{ length: 2, 0: a, 1: b }`: it has no `forEach` and no iterator. -/
def Shape.arrayLikeObject : Shape :=
  { typeofObject := true, text := "[object Object]", truthy := true, lengthIsNumber := true }

/-- A promise that settles as given. -/
def Shape.promise (settlement : Settlement) : Shape :=
  { typeofObject := true, text := "[object Promise]", truthy := true,
    thenable := some { settlement := settlement } }

/-- A thenable that is not a promise: its `then` calls `onFulfilled(1)` before it returns and
lets what the callback throws escape. -/
def eagerThenable : Shape :=
  { typeofObject := true, text := "[object Object]", truthy := true,
    thenable := some { settlement := .fulfilled (.num 1), synchronous := true, rethrows := true } }

/-- A thenable whose `then` calls `onFulfilled(1)` in a later turn and returns nothing, such as
`{ then(f) { setTimeout(() => f(1)); } }`. -/
def thenWithoutResult : Shape :=
  { typeofObject := true, text := "[object Object]", truthy := true,
    thenable := some { settlement := .fulfilled (.num 1), chainable := false } }

/-- A symbol. -/
def Shape.symbol : Shape :=
  { typeofObject := false, isSymbol := true, truthy := true }

/-- An object whose interop method returns an object without a callable `subscribe`. -/
def Shape.interopWithoutSubscribe : Shape :=
  { typeofObject := true, text := "[object Object]", truthy := true,
    observable := some .notSubscribable }

/-- The calls a settled promise is to cause on the subscriber: `next` then `complete` when it
is fulfilled, `error` when it is rejected. -/
def Settlement.calls : Settlement → List Cmd
  | .fulfilled v => [.next v, .complete]
  | .rejected e => [.error e]
  | .pending => []

/-- Whether an input has a shape, by the predicate of `util.js` for that shape (`instanceof`
for `Own`).  A predicate that throws, as `isInteropObservable` does on `null`, does not hold. -/
def Input.hasShape (input : Input) : ObservableInputType → Bool
  | .Own =>
    match input with
    | .own _ => true
    | _ => false
  | .InteropObservable =>
    match isInteropObservable input with
    | .ok holds => holds
    | .error _ => false
  | .ArrayLike => isArrayLike input
  | .Promise => isPromise input
  | .AsyncIterable => isAsyncIterable input
  | .Iterable => isIterable input
  | .ReadableStreamLike => isReadableStreamLike input

/-- The priority order of the shapes, as the specification lists it. -/
def shapePriority : List ObservableInputType :=
  [.Own, .InteropObservable, .ArrayLike, .Promise, .AsyncIterable, .Iterable,
    .ReadableStreamLike]

/-- The first shape of the priority order that the input has. -/
def firstShape (input : Input) : Option ObservableInputType :=
  shapePriority.find? input.hasShape

/-- The wrapper the specification pairs with each shape of a value that is not a
`MyObservable`. -/
def adapterOf (v : Shape) : ObservableInputType → Option MyObservable
  | .Own => none
  | .InteropObservable => some (fromInteropObservable v)
  | .ArrayLike => some (fromArrayLike v)
  | .Promise => some (fromPromise v)
  | .AsyncIterable => some (fromAsyncIterable v.asyncIterable)
  | .Iterable => some (fromIterable v)
  | .ReadableStreamLike => some (fromReadableStreamLike v)

/-- The `TypeError` thrown inside the subscribe function of `fromInteropObservable`. -/
def noSubscribeError : Value := .typeError "没有标记类型Symbol.observable"

/-- The promises of the pulls `ids`, in order, served from the values `vs`, in order: pulls for
which no value is left end with `done`. -/
def serve : List Nat → List Value → List (Nat × IterResult)
  | [], _ => []
  | id :: ids, v :: vs => (id, .value v) :: serve ids vs
  | id :: ids, [] => (id, .done) :: serve ids []

/-- The call of the source behind a step, if the step is one. -/
def IterStep.sourceCmd : IterStep → Option Cmd
  | .source c => some c
  | _ => none

/-- Whether a step is a pull or a call of the source. -/
def IterStep.isPullOrSource : IterStep → Bool
  | .pull => true
  | .source _ => true
  | _ => false

/-- What the pull of rank `i` is to end with when the source pushes `vs` and completes. -/
def expectedPull (vs : List Value) (i : Nat) : IterResult :=
  match vs[i]? with
  | some v => .value v
  | none => .done

/-- The trace entry of a call that reaches an observer with the three handlers. -/
def Cmd.event : Cmd → List Event
  | .next v => [Event.next v]
  | .error e => [Event.error e]
  | .complete => [Event.complete]
  | .unsubscribe => []

/-- The iterator has subscribed with its observer, the subscriber is open and not stopped, the
source has neither completed nor failed, and the buffer and the queue are not both
non-empty. -/
def Bridge.Active (b : Bridge) : Prop :=
  (∃ sub, b.subscription = some sub ∧ sub.closed = false ∧ sub.isStopped = false ∧
    sub.destination.partialObserver = Bridge.observer) ∧
  b.completed = false ∧ b.hasError = false ∧ (b.values = [] ∨ b.deferreds = [])

/-- A source that emits nothing while it is subscribed: it pushes later. -/
def emitsLater : Script :=
  { body := [] }

/-- The source of the round trip, emitting during `subscribe`: `a`, `b`, then `complete`. -/
def emitsAtOnce : Script :=
  { body := [.next (.str "a"), .next (.str "b"), .complete] }

/-- Two pulls parked before the source pushes `a`, pushes `b` and completes, and a pull after
that. -/
def pullsBeforePushes : List IterStep :=
  [.pull, .source (.next (.str "a")), .source (.next (.str "b")), .source .complete, .pull]

/-- A stream whose reader gives `1`, `2` and the end; `releaseLock` is tagged `9`. -/
def sampleStream : Shape :=
  { typeofObject := true, text := "[object ReadableStream]", truthy := true,
    getReader := some { chunks := [.num 1, .num 2], releaseLock := { id := 9 } } }

/-- A stream whose reader gives `1` and then rejects with `f`. -/
def failingStream : Shape :=
  { typeofObject := true, text := "[object ReadableStream]", truthy := true,
    getReader := some { chunks := [.num 1], failure := some (.str "f"),
                        releaseLock := { id := 9 } } }

/-! ## Lemmas -/

theorem Reaction.run_quiet (r : Reaction) (s : MySubscriber) (log : List Event)
    (h : r.unsubscribes = false) :
    (r.run s log).state = s ∧ (r.run s log).log = log := by
  unfold Reaction.run
  simp only [h]
  cases r.throws <;> simp

theorem notifications_append (a b : List Event) :
    notifications (a ++ b) = notifications a ++ notifications b := by
  simp [notifications]

theorem MySubscriber.unsubscribe_facts (s : MySubscriber) (log : List Event) :
    (s.unsubscribe log).state.destination = s.destination ∧
    (s.unsubscribe log).state.closed = s.closed ∧
    ((s.unsubscribe log).state.isStopped = (s.isStopped || s.closed)) ∧
    notifications (s.unsubscribe log).log = notifications log := by
  unfold MySubscriber.unsubscribe
  by_cases hc : s.closed = true
  · simp only [hc, if_true]
    simp [MySubscription.unsubscribe, hc, callOnFinalize]
    cases s.onFinalize with
    | none => simp; exact hc
    | some a =>
      simp [Action.run]
      cases a.throws <;> simp [notifications, Event.isNotification] <;> exact hc
  · simp [hc]

theorem Cmd.run_stopped (c : Cmd) (s : MySubscriber) (log : List Event)
    (hs : s.isStopped = true) (hc : c ≠ Cmd.unsubscribe) :
    (c.run s log).state = s ∧ (c.run s log).log = log := by
  cases c <;> simp [Cmd.run, MySubscriber.next, MySubscriber.error, MySubscriber.complete, hs] at hc ⊢

theorem finallyUnsubscribe_facts (b : Outcome MySubscriber Unit) :
    (finallyUnsubscribe b).state = (b.state.unsubscribe b.log).state ∧
    (finallyUnsubscribe b).log = (b.state.unsubscribe b.log).log := by
  unfold finallyUnsubscribe
  constructor <;> (dsimp only; split <;> rfl)

theorem terminal_facts (b : Outcome MySubscriber Unit) :
    (finallyUnsubscribe b).state.destination = b.state.destination ∧
    (finallyUnsubscribe b).state.closed = b.state.closed ∧
    (finallyUnsubscribe b).state.isStopped = (b.state.isStopped || b.state.closed) ∧
    notifications (finallyUnsubscribe b).log = notifications b.log := by
  rw [(finallyUnsubscribe_facts b).1, (finallyUnsubscribe_facts b).2]
  exact MySubscriber.unsubscribe_facts b.state b.log

theorem Cmd.run_active (c : Cmd) (s : MySubscriber) (log : List Event)
    (hs : s.isStopped = false) (hc : c ≠ Cmd.unsubscribe)
    (hq : s.destination.partialObserver.neverUnsubscribes) :
    (c.run s log).state.destination = s.destination ∧
    (c.run s log).state.isStopped = c.isTerminal ∧
    notifications (c.run s log).log =
      notifications log ++ s.destination.partialObserver.entry c := by
  obtain ⟨hn, he, hcm⟩ := hq
  cases c with
  | unsubscribe => exact absurd rfl hc
  | next v =>
    simp only [Cmd.run, MySubscriber.next, hs, ComsumerObserver.next, PartialObserver.entry,
      Cmd.isTerminal]
    cases hp : s.destination.partialObserver.next with
    | none => simp [hs]
    | some h =>
      have := Reaction.run_quiet (h v) s (log ++ [Event.next v]) (hn h v hp)
      simp [this, hs, notifications, Event.isNotification]
  | error e =>
    simp only [Cmd.run, MySubscriber.error, hs, PartialObserver.entry, Cmd.isTerminal]
    simp only [Bool.not_false, if_true]
    obtain ⟨h1, -, h3, h4⟩ := terminal_facts
      (ComsumerObserver.error { s with isStopped := true }.destination e
        { s with isStopped := true } log)
    rw [h1, h3, h4]
    simp only [ComsumerObserver.error]
    cases hp : s.destination.partialObserver.error with
    | none => simp
    | some h =>
      have := Reaction.run_quiet (h e) { s with isStopped := true } (log ++ [Event.error e])
        (he h e hp)
      simp [this, notifications, Event.isNotification]
  | complete =>
    simp only [Cmd.run, MySubscriber.complete, hs, PartialObserver.entry, Cmd.isTerminal]
    simp only [Bool.not_false, if_true]
    obtain ⟨h1, -, h3, h4⟩ := terminal_facts
      (ComsumerObserver.complete { s with isStopped := true }.destination
        { s with isStopped := true } log)
    rw [h1, h3, h4]
    simp only [ComsumerObserver.complete]
    cases hp : s.destination.partialObserver.complete with
    | none => simp
    | some h =>
      have := Reaction.run_quiet h { s with isStopped := true } (log ++ [Event.complete])
        (hcm h hp)
      simp [this, notifications, Event.isNotification]

theorem callAll_stopped (cs : List Cmd) (s : MySubscriber) (log : List Event)
    (hs : s.isStopped = true) (hc : Cmd.unsubscribe ∉ cs) :
    (callAll cs s log).2 = log := by
  induction cs with
  | nil => rfl
  | cons c cs ih =>
    have hc1 : c ≠ Cmd.unsubscribe := fun h => hc (h ▸ List.mem_cons_self _ _)
    have hc2 : Cmd.unsubscribe ∉ cs := fun h => hc (List.mem_cons_of_mem _ h)
    obtain ⟨h1, h2⟩ := Cmd.run_stopped c s log hs hc1
    simp only [callAll, h1, h2]
    exact ih hc2

theorem MySubscriber.unsubscribe_open (s : MySubscriber) (log : List Event)
    (hc : s.closed = false) : s.unsubscribe log = ⟨s, log, .ok ()⟩ := by
  unfold MySubscriber.unsubscribe
  simp [hc]

theorem reaction_run_open (r : Reaction) (s : MySubscriber) (log : List Event)
    (hc : s.closed = false) : r.run s log = ⟨s, log, thrownOr r.throws⟩ := by
  unfold Reaction.run
  rw [MySubscriber.unsubscribe_open s log hc]
  cases r.unsubscribes <;> cases r.throws <;> simp [thrownOr]

theorem finallyUnsubscribe_open (b : Outcome MySubscriber Unit) (hc : b.state.closed = false) :
    finallyUnsubscribe b = b := by
  unfold finallyUnsubscribe
  rw [MySubscriber.unsubscribe_open b.state b.log hc]

theorem MySubscriber.next_open (s : MySubscriber) (v : Value) (log : List Event)
    (hc : s.closed = false) (hs : s.isStopped = false) :
    s.next v log =
      match s.destination.partialObserver.next with
      | some h => ⟨s, log ++ [Event.next v], thrownOr (h v).throws⟩
      | none => ⟨s, log, .ok ()⟩ := by
  unfold MySubscriber.next ComsumerObserver.next
  simp only [hs, Bool.not_false, if_true]
  cases s.destination.partialObserver.next with
  | none => rfl
  | some h => exact reaction_run_open _ _ _ hc

theorem MySubscriber.error_open (s : MySubscriber) (e : Value) (log : List Event)
    (hc : s.closed = false) (hs : s.isStopped = false) :
    s.error e log =
      match s.destination.partialObserver.error with
      | some h => ⟨{ s with isStopped := true }, log ++ [Event.error e], thrownOr (h e).throws⟩
      | none => ⟨{ s with isStopped := true }, log, .error e⟩ := by
  unfold MySubscriber.error ComsumerObserver.error
  simp only [hs, Bool.not_false, if_true]
  cases s.destination.partialObserver.error with
  | none => exact finallyUnsubscribe_open _ hc
  | some h =>
    simp only
    rw [reaction_run_open _ _ _ (by exact hc)]
    exact finallyUnsubscribe_open _ hc

theorem MySubscriber.complete_open (s : MySubscriber) (log : List Event)
    (hc : s.closed = false) (hs : s.isStopped = false) :
    s.complete log =
      match s.destination.partialObserver.complete with
      | some h => ⟨{ s with isStopped := true }, log ++ [Event.complete], thrownOr h.throws⟩
      | none => ⟨{ s with isStopped := true }, log, .ok ()⟩ := by
  unfold MySubscriber.complete ComsumerObserver.complete
  simp only [hs, Bool.not_false, if_true]
  cases s.destination.partialObserver.complete with
  | none => exact finallyUnsubscribe_open _ hc
  | some h =>
    simp only
    rw [reaction_run_open _ _ _ (by exact hc)]
    exact finallyUnsubscribe_open _ hc

theorem MySubscription.unsubscribe_closed (s : MySubscription) (log : List Event)
    (hc : s.closed = true) : s.unsubscribe log = ⟨s, log, .ok ()⟩ := by
  unfold MySubscription.unsubscribe
  simp [hc]

theorem throwIfErrors_facts (s : MySubscription) (log : List Event) (es : Option (List Value)) :
    (throwIfErrors s log es).state = s ∧ (throwIfErrors s log es).log = log := by
  cases es <;> simp [throwIfErrors]

theorem MySubscription.unsubscribe_sets_closed (s : MySubscription) (log : List Event) :
    (s.unsubscribe log).state.closed = true := by
  unfold MySubscription.unsubscribe
  by_cases hc : s.closed = true
  · simp [hc]
  · simp only [hc]
    cases s.finalizers with
    | none => simp [(throwIfErrors_facts _ _ _).1]
    | some fs =>
      simp only [Bool.false_eq_true, if_false]
      split
      · rfl
      · simp [(throwIfErrors_facts _ _ _).1]

theorem unsubscribeTimes_closed (n : Nat) (s : MySubscription) (log : List Event)
    (hc : s.closed = true) : unsubscribeTimes n s log = (s, log) := by
  induction n with
  | zero => rfl
  | succ n ih => simp only [unsubscribeTimes, MySubscription.unsubscribe_closed s log hc, ih]

theorem forEachItem_open (items : List Value) (s : MySubscriber) (log : List Event)
    (hc : s.closed = false) (hs : s.isStopped = false)
    (hn : ∀ h v, s.destination.partialObserver.next = some h → (h v).throws = none) :
    forEachItem items s log =
      ⟨s, log ++ (items.map Cmd.next).flatMap s.destination.partialObserver.entry, .ok ()⟩ := by
  induction items generalizing log with
  | nil => simp [forEachItem]
  | cons v vs ih =>
    simp only [forEachItem, hc, Bool.false_eq_true, if_false]
    rw [MySubscriber.next_open s v log hc hs]
    cases hp : s.destination.partialObserver.next with
    | none =>
      simp only
      rw [ih]
      simp [PartialObserver.entry, hp]
    | some h =>
      simp only [hn h v hp, thrownOr]
      rw [ih]
      simp [PartialObserver.entry, hp, List.append_assoc]

theorem MySubscriber.new_facts (d : ObserverOrNext) (f : Option Action) :
    (MySubscriber.new d f).closed = false ∧ (MySubscriber.new d f).isStopped = false ∧
    (MySubscriber.new d f).destination = createSaveObserver d :=
  ⟨rfl, rfl, rfl⟩

theorem cmd_run_open (c : Cmd) (s : MySubscriber) (log : List Event) (hc : s.closed = false) :
    (c.run s log).state.closed = false ∧
    (c.run s log).state.destination = s.destination ∧
    ((c.run s log).state.isStopped = false →
      s.isStopped = false ∧ ∃ vs : List Value, (c.run s log).log = log ++ vs.map Event.next) := by
  by_cases hs : s.isStopped = true
  · cases c with
    | unsubscribe =>
      simp only [Cmd.run, MySubscriber.unsubscribe_open s log hc]
      exact ⟨hc, trivial, fun h => ⟨h, [], by simp⟩⟩
    | next v => simp [Cmd.run, MySubscriber.next, hs, hc]
    | error e => simp [Cmd.run, MySubscriber.error, hs, hc]
    | complete => simp [Cmd.run, MySubscriber.complete, hs, hc]
  · have hs' : s.isStopped = false := by simpa using hs
    cases c with
    | unsubscribe =>
      simp only [Cmd.run, MySubscriber.unsubscribe_open s log hc]
      exact ⟨hc, trivial, fun h => ⟨h, [], by simp⟩⟩
    | next v =>
      simp only [Cmd.run, MySubscriber.next_open s v log hc hs']
      cases s.destination.partialObserver.next with
      | none => exact ⟨hc, rfl, fun h => ⟨h, [], by simp⟩⟩
      | some h => exact ⟨hc, rfl, fun h => ⟨h, [v], by simp⟩⟩
    | error e =>
      simp only [Cmd.run, MySubscriber.error_open s e log hc hs']
      cases s.destination.partialObserver.error <;> exact ⟨hc, rfl, fun h => by simp at h⟩
    | complete =>
      simp only [Cmd.run, MySubscriber.complete_open s log hc hs']
      cases s.destination.partialObserver.complete <;> exact ⟨hc, rfl, fun h => by simp at h⟩

theorem runCmds_open (cs : List Cmd) (s : MySubscriber) (log : List Event)
    (hc : s.closed = false) :
    (runCmds cs s log).state.closed = false ∧
    (runCmds cs s log).state.destination = s.destination ∧
    ((runCmds cs s log).state.isStopped = false →
      s.isStopped = false ∧ ∃ vs : List Value, (runCmds cs s log).log = log ++ vs.map Event.next) := by
  induction cs generalizing s log with
  | nil => exact ⟨hc, rfl, fun h => ⟨h, [], by simp [runCmds]⟩⟩
  | cons c cs ih =>
    obtain ⟨h1, h2, h3⟩ := cmd_run_open c s log hc
    simp only [runCmds]
    split
    · exact ⟨h1, h2, h3⟩
    · obtain ⟨i1, i2, i3⟩ := ih (c.run s log).state (c.run s log).log h1
      refine ⟨i1, i2.trans h2, fun h => ?_⟩
      obtain ⟨j1, ws, j2⟩ := i3 h
      obtain ⟨k1, vs, k2⟩ := h3 j1
      exact ⟨k1, vs ++ ws, by rw [j2, k2]; simp⟩

theorem script_run_open (c : Script) (s : MySubscriber) (log : List Event)
    (hc : s.closed = false) :
    (c.run s log).state.closed = false ∧
    (c.run s log).state.destination = s.destination ∧
    ((c.run s log).state.isStopped = false →
      ∃ vs : List Value, (c.run s log).log = log ++ vs.map Event.next) := by
  obtain ⟨h1, h2, h3⟩ := runCmds_open c.body s log hc
  have hst : (c.run s log).state = (runCmds c.body s log).state ∧
      (c.run s log).log = (runCmds c.body s log).log := by
    unfold Script.run
    constructor <;> (dsimp only; split <;> [rfl; (split <;> rfl)])
  rw [hst.1, hst.2]
  exact ⟨h1, h2, fun h => (h3 h).2⟩

theorem runCmds_append (a b : List Cmd) (s : MySubscriber) (log : List Event) :
    runCmds (a ++ b) s log =
      match (runCmds a s log).result with
      | .error _ => runCmds a s log
      | .ok _ => runCmds b (runCmds a s log).state (runCmds a s log).log := by
  induction a generalizing s log with
  | nil => simp [runCmds]
  | cons c cs ih =>
    simp only [List.cons_append, runCmds]
    cases hr : (c.run s log).result with
    | error e => simp [hr]
    | ok u => simp only [hr]; exact ih _ _

theorem fullObserver_neverUnsubscribes : fullObserver.neverUnsubscribes := by
  refine ⟨fun h v hp => ?_, fun h e hp => ?_, fun h hp => ?_⟩ <;>
    simp only [fullObserver, Option.some.injEq] at hp <;> subst hp <;> rfl

theorem fullObserver_emitsSafely : fullObserver.emitsSafely := by
  refine ⟨fun h v hp => ?_, fun h hp => ?_⟩ <;>
    simp only [fullObserver, Option.some.injEq] at hp <;> subst hp <;> rfl

/-- The classifier answers `Own` only for a `MyObservable`, and any other kind only for a value
that is neither `null` nor `undefined`: the last line of `MyFrom` is never reached. -/
theorem getObservableInputType_input (input : Input) (type : ObservableInputType)
    (h : getObservableInputType input = .ok type) :
    (type = .Own → ∃ o, input = .own o) ∧ (type ≠ .Own → ∃ v, input = .value v) := by
  cases input with
  | own o =>
    simp only [getObservableInputType, Except.ok.injEq] at h
    exact ⟨fun _ => ⟨o, rfl⟩, fun hne => absurd h.symm hne⟩
  | null => simp [getObservableInputType, isInteropObservable] at h
  | undefined => simp [getObservableInputType, isInteropObservable] at h
  | value v =>
    refine ⟨fun ht => ?_, fun _ => ⟨v, rfl⟩⟩
    subst ht
    simp only [getObservableInputType, isInteropObservable] at h
    split at h
    · cases h
    · cases h
    · split_ifs at h <;> cases h

/-! ## The claims -/

/-- C1. On a subscriber that is not stopped and whose observer's handlers never call
`unsubscribe()`, whatever they throw, a sequence of `next`/`error`/`complete` calls invokes the
handlers for exactly the calls up to and including the first `error` or `complete`, in order,
and for none of the later calls.  A call the observer has no handler for leaves no entry. -/
theorem subscriber_delivers_up_to_first_terminal (s : MySubscriber) (calls : List Cmd)
    (log : List Event) (hs : s.isStopped = false) (hc : Cmd.unsubscribe ∉ calls)
    (hq : s.destination.partialObserver.neverUnsubscribes) :
    notifications (callAll calls s log).2 =
      notifications log ++
        (upToTerminal calls).flatMap s.destination.partialObserver.entry := by
  induction calls generalizing s log with
  | nil => simp [callAll, upToTerminal]
  | cons c cs ih =>
    have hc1 : c ≠ Cmd.unsubscribe := fun h => hc (h ▸ List.mem_cons_self _ _)
    have hc2 : Cmd.unsubscribe ∉ cs := fun h => hc (List.mem_cons_of_mem _ h)
    obtain ⟨h1, h2, h3⟩ := Cmd.run_active c s log hs hc1 hq
    simp only [callAll, upToTerminal]
    by_cases ht : c.isTerminal = true
    · rw [callAll_stopped cs _ _ (h2.trans ht) hc2, h3]
      simp [ht]
    · have ht2 : c.isTerminal = false := by simpa using ht
      rw [ih _ _ (h2.trans ht2) hc2 (h1 ▸ hq), h3, h1]
      simp [ht2, List.append_assoc]

/-- C1 at `next(1); complete(); next(2); error('late')` on a fresh subscriber with the three
handlers: exactly `next(1)` and `complete()` are delivered. -/
theorem subscriber_delivers_up_to_first_terminal_witness :
    (MySubscriber.new (.observer fullObserver) none).isStopped = false ∧
    Cmd.unsubscribe ∉
      [Cmd.next (.num 1), Cmd.complete, Cmd.next (.num 2), Cmd.error (.str "late")] ∧
    (MySubscriber.new (.observer fullObserver)
      none).destination.partialObserver.neverUnsubscribes ∧
    notifications (callAll
      [Cmd.next (.num 1), Cmd.complete, Cmd.next (.num 2), Cmd.error (.str "late")]
      (MySubscriber.new (.observer fullObserver) none) []).2 =
        [Event.next (.num 1), Event.complete] :=
  ⟨rfl, by decide, fullObserver_neverUnsubscribes,
    subscriber_delivers_up_to_first_terminal _ _ [] rfl (by decide)
      fullObserver_neverUnsubscribes⟩

/-- C2, evaluated on a fresh subscriber: after `complete()`, after `error(e)` with an error
handler, and after a direct `unsubscribe()`, the flag `closed` is still false, and after the
direct `unsubscribe()` the subscriber is not even stopped. -/
theorem subscriber_never_closes :
    ((MySubscriber.new (.observer fullObserver) none).complete []).state.closed = false ∧
    ((MySubscriber.new (.observer fullObserver) none).error (.str "e") []).state.closed = false ∧
    ((MySubscriber.new (.observer fullObserver) none).unsubscribe []).state.closed = false ∧
    ((MySubscriber.new (.observer fullObserver) none).unsubscribe []).state.isStopped = false := by
  decide

/-- C3, evaluated on the source `[1,2,3,4]` with a consumer that calls `unsubscribe()` on
receiving `2`: for the iterable and for the array every value is delivered, and `complete`
after them. -/
theorem cancel_mid_iteration_is_ignored :
    MyFrom (.value (Shape.iterableOf [.num 1, .num 2, .num 3, .num 4])) =
      .ok (fromIterable (Shape.iterableOf [.num 1, .num 2, .num 3, .num 4])) ∧
    ((fromIterable (Shape.iterableOf [.num 1, .num 2, .num 3, .num 4])).subscribe
      (.subscriber cancellingSubscriber) []).log =
      [.next (.num 1), .next (.num 2), .next (.num 3), .next (.num 4), .complete] ∧
    MyFrom (.value (Shape.array [.num 1, .num 2, .num 3, .num 4])) =
      .ok (fromArrayLike (Shape.array [.num 1, .num 2, .num 3, .num 4])) ∧
    ((fromArrayLike (Shape.array [.num 1, .num 2, .num 3, .num 4])).subscribe
      (.subscriber cancellingSubscriber) []).log =
      [.next (.num 1), .next (.num 2), .next (.num 3), .next (.num 4), .complete] :=
  ⟨rfl, by decide, rfl, by decide⟩

/-- C4, evaluated on an open subscription with the finalizers `f1` (throws `e1`), `f2`, `f3`
(throws `e3`) registered in that order: `#finalizers` is still `null`, and `unsubscribe()` runs
none of them and returns normally. -/
theorem added_finalizers_never_run :
    (addEach threeFinalizers (MySubscription.new none) []).1.finalizers = none ∧
    ((addEach threeFinalizers (MySubscription.new none) []).1.unsubscribe
      (addEach threeFinalizers (MySubscription.new none) []).2).log = [] ∧
    ((addEach threeFinalizers (MySubscription.new none) []).1.unsubscribe
      (addEach threeFinalizers (MySubscription.new none) []).2).result = .ok () := by
  decide

/-- C5, evaluated on a source that emits nothing and returns a teardown function: `subscribe`
returns the subscriber, and `unsubscribe()` on it returns normally and leaves the trace empty,
so the teardown has not run. -/
theorem returned_teardown_never_runs :
    subscribedWithTeardown.result = .ok () ∧
    subscribedWithTeardown.log = [] ∧
    (subscribedWithTeardown.state.unsubscribe subscribedWithTeardown.log).log = [] ∧
    (subscribedWithTeardown.state.unsubscribe subscribedWithTeardown.log).result = .ok () := by
  decide

/-- C6. For every `MySubscription`: after `unsubscribe()` the flag `closed` is true; on an open
subscription (with `#finalizers` null, as on every subscription the program builds) the call
runs `initialTeardown` once if it is a function and nothing else; a further call changes no
state, runs nothing and returns normally; and `n + 1` calls leave the same state and trace as
one call. -/
theorem unsubscribe_idempotent (s : MySubscription) (log : List Event) (n : Nat) :
    (s.unsubscribe log).state.closed = true ∧
    (s.closed = false → s.finalizers = none →
      (s.unsubscribe log).log = log ++ (s.initialTeardown.map fun a => Event.ran a.id).toList) ∧
    (s.unsubscribe log).state.unsubscribe (s.unsubscribe log).log =
      ⟨(s.unsubscribe log).state, (s.unsubscribe log).log, .ok ()⟩ ∧
    unsubscribeTimes (n + 1) s log = ((s.unsubscribe log).state, (s.unsubscribe log).log) := by
  have h1 := MySubscription.unsubscribe_sets_closed s log
  refine ⟨h1, ?_, MySubscription.unsubscribe_closed _ _ h1, ?_⟩
  · intro hc hf
    unfold MySubscription.unsubscribe
    simp only [hc, hf, Bool.false_eq_true, if_false]
    rw [(throwIfErrors_facts _ _ _).2]
    cases s.initialTeardown with
    | none => simp [runInitialTeardown]
    | some a =>
      simp only [runInitialTeardown, Action.run]
      cases a.throws <;> simp
  · simp only [unsubscribeTimes]
    exact unsubscribeTimes_closed n _ _ h1

/-- C6 at a subscription whose `initialTeardown` is the function tagged `1`: the first call runs
it, and three calls leave what one call leaves. -/
theorem unsubscribe_idempotent_witness :
    (MySubscription.new (some { id := 1 })).closed = false ∧
    (MySubscription.new (some { id := 1 })).finalizers = none ∧
    ((MySubscription.new (some { id := 1 })).unsubscribe []).log = [Event.ran 1] ∧
    unsubscribeTimes 3 (MySubscription.new (some { id := 1 })) [] =
      (((MySubscription.new (some { id := 1 })).unsubscribe []).state,
        ((MySubscription.new (some { id := 1 })).unsubscribe []).log) :=
  ⟨rfl, rfl, (unsubscribe_idempotent (MySubscription.new (some { id := 1 })) [] 2).2.1 rfl rfl,
    (unsubscribe_idempotent (MySubscription.new (some { id := 1 })) [] 2).2.2.2⟩

/-- C7, evaluated on the source `next('hallo'); error('world'); complete()` subscribed with a
bare `next` callback: `subscribe` returns normally and only `next('hallo')` was observed, so
the error `'world'` reached neither a handler nor the caller. -/
theorem unhandled_error_is_dropped :
    ((MyObservable.ofScript halloWorld).subscribe (.other (.next quiet)) []).result = .ok () ∧
    ((MyObservable.ofScript halloWorld).subscribe (.other (.next quiet)) []).log =
      [.next (.str "hallo")] := by
  decide

/-- C8 is false as stated: for a source that calls `next(1)` and an observer whose `next`
handler throws `x`, the observer's own `error` handler is invoked with `x` and `subscribe`
returns normally. -/
theorem next_handler_exception_reaches_error_handler :
    ((MyObservable.ofScript emitsOne).subscribe (.other (.observer throwsOnNext)) []).result =
      .ok () ∧
    ((MyObservable.ofScript emitsOne).subscribe (.other (.observer throwsOnNext)) []).log =
      [.next (.num 1), .error (.str "x")] := by
  decide

/-- C8, as amended.  Let the subscribe function make the calls `pre`, which return normally and
leave the fresh subscriber active, and then call `next(v)`, on which the `next` handler throws
`x`.  Then `x` leaves `subscriber.next(v)`, towards the subscribe function; as that function
does not catch it, `subscribe` routes it to `subscriber.error(x)`: an observer whose `error`
handler returns normally on `x` has it invoked with `x` right after `next(v)` and `subscribe`
returns normally, and with an observer without `error` handler `subscribe` throws `x`. -/
theorem next_handler_exception_is_routed_to_error (c : Script) (pre rest : List Cmd)
    (d : ObserverOrNext) (log : List Event) (v x : Value) (hn : Value → Reaction)
    (hbody : c.body = pre ++ Cmd.next v :: rest)
    (hnext : (createSaveObserver d).partialObserver.next = some hn)
    (hthrow : (hn v).throws = some x)
    (hpre : (runCmds pre (MySubscriber.new d none) log).result = .ok ())
    (hactive : (runCmds pre (MySubscriber.new d none) log).state.isStopped = false) :
    ((runCmds pre (MySubscriber.new d none) log).state.next v
        (runCmds pre (MySubscriber.new d none) log).log).result = .error x ∧
    (∀ he : Value → Reaction, (createSaveObserver d).partialObserver.error = some he →
      (he x).throws = none →
      ((MyObservable.ofScript c).subscribe (.other d) log).result = .ok () ∧
      ((MyObservable.ofScript c).subscribe (.other d) log).log =
        (runCmds pre (MySubscriber.new d none) log).log ++ [Event.next v, Event.error x]) ∧
    ((createSaveObserver d).partialObserver.error = none →
      ((MyObservable.ofScript c).subscribe (.other d) log).result = .error x ∧
      ((MyObservable.ofScript c).subscribe (.other d) log).log =
        (runCmds pre (MySubscriber.new d none) log).log ++ [Event.next v]) := by
  obtain ⟨h1, h2, -⟩ := runCmds_open pre (MySubscriber.new d none) log rfl
  have hnext' : (runCmds pre (MySubscriber.new d none) log).state.destination.partialObserver.next
      = some hn := by rw [h2]; exact hnext
  have hcall : (runCmds pre (MySubscriber.new d none) log).state.next v
      (runCmds pre (MySubscriber.new d none) log).log =
      ⟨(runCmds pre (MySubscriber.new d none) log).state,
        (runCmds pre (MySubscriber.new d none) log).log ++ [Event.next v], .error x⟩ := by
    rw [MySubscriber.next_open _ _ _ h1 hactive]
    simp only [hnext', hthrow, thrownOr]
  have hrun : c.run (MySubscriber.new d none) log =
      ⟨(runCmds pre (MySubscriber.new d none) log).state,
        (runCmds pre (MySubscriber.new d none) log).log ++ [Event.next v], .error x⟩ := by
    unfold Script.run
    rw [hbody, runCmds_append]
    simp only [hpre, runCmds, Cmd.run, hcall]
  refine ⟨by rw [hcall], ?_, ?_⟩
  · intro he hhe hquiet
    have hhe' : (runCmds pre (MySubscriber.new d none) log).state.destination.partialObserver.error
        = some he := by rw [h2]; exact hhe
    have key : (MyObservable.ofScript c).subscribe (.other d) log =
        ⟨{ (runCmds pre (MySubscriber.new d none) log).state with isStopped := true },
          (runCmds pre (MySubscriber.new d none) log).log ++ [Event.next v, Event.error x],
          .ok ()⟩ := by
      simp only [MyObservable.subscribe, MyObservable.trySubscribe, MyObservable.ofScript,
        ObserverArg.toSubscriber, hrun]
      rw [MySubscriber.error_open _ _ _ h1 hactive]
      simp only [hhe', hquiet, thrownOr]
      simp [MySubscriber.add, MySubscription.add]
    rw [key]
    exact ⟨rfl, rfl⟩
  · intro hnone
    have hnone' : (runCmds pre (MySubscriber.new d none) log).state.destination.partialObserver.error
        = none := by rw [h2]; exact hnone
    have key : (MyObservable.ofScript c).subscribe (.other d) log =
        ⟨{ (runCmds pre (MySubscriber.new d none) log).state with isStopped := true },
          (runCmds pre (MySubscriber.new d none) log).log ++ [Event.next v], .error x⟩ := by
      simp only [MyObservable.subscribe, MyObservable.trySubscribe, MyObservable.ofScript,
        ObserverArg.toSubscriber, hrun]
      rw [MySubscriber.error_open _ _ _ h1 hactive]
      simp only [hnone']
    rw [key]
    exact ⟨rfl, rfl⟩

/-- C8 as amended, at the source that calls `next(1)` and the observer whose `next` handler
throws `x`. -/
theorem next_handler_exception_is_routed_to_error_witness :
    emitsOne.body = [] ++ Cmd.next (.num 1) :: [] ∧
    (createSaveObserver (.observer throwsOnNext)).partialObserver.next =
      some (throwing (.str "x")) ∧
    (throwing (.str "x") (.num 1)).throws = some (.str "x") ∧
    (runCmds [] (MySubscriber.new (.observer throwsOnNext) none) []).result = .ok () ∧
    (runCmds [] (MySubscriber.new (.observer throwsOnNext) none) []).state.isStopped = false ∧
    ((MySubscriber.new (.observer throwsOnNext) none).next (.num 1) []).result =
      .error (.str "x") ∧
    ((MyObservable.ofScript emitsOne).subscribe (.other (.observer throwsOnNext)) []).result =
      .ok () ∧
    ((MyObservable.ofScript emitsOne).subscribe (.other (.observer throwsOnNext)) []).log =
      [Event.next (.num 1), Event.error (.str "x")] :=
  ⟨rfl, rfl, rfl, rfl, rfl,
    (next_handler_exception_is_routed_to_error emitsOne [] [] (.observer throwsOnNext) []
      (.num 1) (.str "x") (throwing (.str "x")) rfl rfl rfl rfl rfl).1,
    (next_handler_exception_is_routed_to_error emitsOne [] [] (.observer throwsOnNext) []
      (.num 1) (.str "x") (throwing (.str "x")) rfl rfl rfl rfl rfl).2.1 quiet rfl rfl⟩

/-- C9. If the subscribe function, run on the fresh subscriber of an observer, throws `x` while
the subscriber is not stopped, and the observer's `error` handler returns normally on `x`,
then `subscribe` returns normally and the trace consists of `next` entries followed by the
single entry `error(x)`: the handler is invoked once with `x`, and `complete` is not delivered. -/
theorem subscribe_routes_thrown_error (c : Script) (d : ObserverOrNext) (log : List Event)
    (x : Value) (h : Value → Reaction)
    (he : (createSaveObserver d).partialObserver.error = some h)
    (hx : (h x).throws = none)
    (hthrow : (c.run (MySubscriber.new d none) log).result = .error x)
    (hactive : (c.run (MySubscriber.new d none) log).state.isStopped = false) :
    ((MyObservable.ofScript c).subscribe (.other d) log).result = .ok () ∧
    ∃ vs : List Value, ((MyObservable.ofScript c).subscribe (.other d) log).log =
      log ++ vs.map Event.next ++ [Event.error x] := by
  obtain ⟨h1, h2, h3⟩ := script_run_open c (MySubscriber.new d none) log rfl
  obtain ⟨vs, hvs⟩ := h3 hactive
  have he' : (c.run (MySubscriber.new d none) log).state.destination.partialObserver.error
      = some h := by rw [h2]; exact he
  have key : (MyObservable.ofScript c).subscribe (.other d) log =
      ⟨{ (c.run (MySubscriber.new d none) log).state with isStopped := true },
        log ++ vs.map Event.next ++ [Event.error x], .ok ()⟩ := by
    simp only [MyObservable.subscribe, MyObservable.trySubscribe, MyObservable.ofScript,
      ObserverArg.toSubscriber, hthrow]
    rw [MySubscriber.error_open _ _ _ h1 hactive]
    simp only [he', hx, thrownOr, hvs]
    simp [MySubscriber.add, MySubscription.add]
  rw [key]
  exact ⟨rfl, vs, rfl⟩

/-- C9 at the source `next(1); throw 'boom'` and an observer with the three handlers. -/
theorem subscribe_routes_thrown_error_witness :
    (createSaveObserver (.observer fullObserver)).partialObserver.error = some quiet ∧
    (quiet (.str "boom")).throws = none ∧
    (emitsThenThrows.run (MySubscriber.new (.observer fullObserver) none) []).result =
      .error (.str "boom") ∧
    (emitsThenThrows.run (MySubscriber.new (.observer fullObserver) none)
      []).state.isStopped = false ∧
    ((MyObservable.ofScript emitsThenThrows).subscribe (.other (.observer fullObserver))
      []).result = .ok () ∧
    ∃ vs : List Value, ((MyObservable.ofScript emitsThenThrows).subscribe
      (.other (.observer fullObserver)) []).log =
        [] ++ vs.map Event.next ++ [Event.error (.str "boom")] :=
  ⟨rfl, rfl, by decide, by decide,
    subscribe_routes_thrown_error emitsThenThrows (.observer fullObserver) [] (.str "boom") quiet
      rfl rfl (by decide) (by decide)⟩

/-- C10. For an array `xs` and an observer whose `next` and `complete` handlers return normally,
`MyFrom(xs)` is the array adapter, and subscribing to it returns normally with a trace that
grew by `next(x)` for each element in index order and then `complete()`, each entry present
when the observer has the handler, and by no `error`. -/
theorem from_array_emits_all_then_completes (xs : List Value) (d : ObserverOrNext)
    (log : List Event) (hp : (createSaveObserver d).partialObserver.emitsSafely) :
    MyFrom (.value (Shape.array xs)) = .ok (fromArrayLike (Shape.array xs)) ∧
    ((fromArrayLike (Shape.array xs)).subscribe (.other d) log).result = .ok () ∧
    ((fromArrayLike (Shape.array xs)).subscribe (.other d) log).log =
      log ++ (xs.map Cmd.next ++ [Cmd.complete]).flatMap
        (createSaveObserver d).partialObserver.entry := by
  obtain ⟨hn, hcm⟩ := hp
  refine ⟨rfl, ?_⟩
  have key : (fromArrayLike (Shape.array xs)).subscribe (.other d) log =
      ⟨{ MySubscriber.new d none with isStopped := true },
        log ++ (xs.map Cmd.next ++ [Cmd.complete]).flatMap
          (createSaveObserver d).partialObserver.entry, .ok ()⟩ := by
    simp only [MyObservable.subscribe, MyObservable.trySubscribe, fromArrayLike, Shape.array,
      ObserverArg.toSubscriber]
    rw [forEachItem_open xs (MySubscriber.new d none) log rfl rfl hn]
    simp only
    rw [MySubscriber.complete_open _ _ rfl rfl]
    cases hc : (MySubscriber.new d none).destination.partialObserver.complete with
    | none =>
      have hc' : (createSaveObserver d).partialObserver.complete = none := hc
      simp [MySubscriber.add, MySubscription.add, PartialObserver.entry, hc']
      rfl
    | some h =>
      have hc' : (createSaveObserver d).partialObserver.complete = some h := hc
      simp [MySubscriber.add, MySubscription.add, PartialObserver.entry, hc', hcm h hc', thrownOr]
      rfl
  rw [key]
  exact ⟨rfl, rfl⟩

/-- C10 at `[1,2,3]` and an observer with the three handlers: `next(1), next(2), next(3),
complete()`. -/
theorem from_array_emits_all_then_completes_witness :
    (createSaveObserver (.observer fullObserver)).partialObserver.emitsSafely ∧
    MyFrom (.value (Shape.array [.num 1, .num 2, .num 3])) =
      .ok (fromArrayLike (Shape.array [.num 1, .num 2, .num 3])) ∧
    ((fromArrayLike (Shape.array [.num 1, .num 2, .num 3])).subscribe
      (.other (.observer fullObserver)) []).result = .ok () ∧
    ((fromArrayLike (Shape.array [.num 1, .num 2, .num 3])).subscribe
      (.other (.observer fullObserver)) []).log =
      [.next (.num 1), .next (.num 2), .next (.num 3), .complete] :=
  ⟨fullObserver_emitsSafely,
    from_array_emits_all_then_completes [.num 1, .num 2, .num 3] (.observer fullObserver) []
      fullObserver_emitsSafely⟩

/-! ## Lemmas on the iterator -/

theorem Bridge.onNext_consistent (b : Bridge) (v : Value) (h : b.Consistent) :
    (b.onNext v).Consistent := by
  unfold Bridge.Consistent at *
  unfold Bridge.onNext
  cases hd : b.deferreds <;> simp_all

theorem Bridge.handleError_consistent (b : Bridge) (e : Value) :
    (b.handleError e).Consistent :=
  ⟨Or.inr rfl, Or.inr rfl⟩

theorem Bridge.handleComplete_consistent (b : Bridge) : b.handleComplete.Consistent :=
  ⟨Or.inr rfl, Or.inr rfl⟩

theorem Bridge.deliver_consistent (b : Bridge) (e : Event) (h : b.Consistent) :
    (b.deliver e).Consistent := by
  cases e with
  | next v => exact Bridge.onNext_consistent b v h
  | error e => exact Bridge.handleError_consistent b e
  | complete => exact Bridge.handleComplete_consistent b
  | ran _ => exact h

theorem Bridge.deliverAll_consistent (es : List Event) (b : Bridge) (h : b.Consistent) :
    (es.foldl Bridge.deliver b).Consistent := by
  induction es generalizing b with
  | nil => exact h
  | cons e es ih => exact ih _ (Bridge.deliver_consistent b e h)

theorem Bridge.pull_consistent (b : Bridge) (h : b.Consistent) : b.pull.Consistent := by
  unfold Bridge.Consistent at *
  unfold Bridge.pull
  cases hv : b.values with
  | cons v rest => simp_all
  | nil =>
    by_cases hc : b.completed = true
    · simp_all
    · by_cases he : b.hasError = true
      · simp_all
      · simp_all

theorem Bridge.next_consistent (source : MyObservable) (b : Bridge) (h : b.Consistent) :
    (b.next source).Consistent := by
  unfold Bridge.next
  cases b.subscription with
  | some _ => exact Bridge.pull_consistent b h
  | none =>
    simp only
    have h1 := Bridge.deliverAll_consistent
      (source.subscribe (.other (.observer Bridge.observer)) []).log b h
    split
    · exact Bridge.pull_consistent _ h1
    · exact h1

theorem Bridge.unsubscribe_consistent (b : Bridge) (h : b.Consistent) :
    b.unsubscribe.1.Consistent := by
  unfold Bridge.unsubscribe
  cases b.subscription with
  | none => exact h
  | some sub => exact h

theorem Bridge.return_consistent (b : Bridge) (h : b.Consistent) : b.return.Consistent := by
  unfold Bridge.return
  have h1 := Bridge.unsubscribe_consistent b h
  split
  · next b1 e heq => rw [heq] at h1; exact h1
  · exact Bridge.handleComplete_consistent _

theorem Bridge.throw_consistent (b : Bridge) (e : Value) (h : b.Consistent) :
    (b.throw e).Consistent := by
  unfold Bridge.throw
  have h1 := Bridge.unsubscribe_consistent b h
  split
  · next b1 e heq => rw [heq] at h1; exact h1
  · exact Bridge.handleError_consistent _ _

theorem Bridge.sourceCall_consistent (b : Bridge) (c : Cmd) (h : b.Consistent) :
    (b.sourceCall c).Consistent := by
  unfold Bridge.sourceCall
  cases b.subscription with
  | none => exact h
  | some sub => exact Bridge.deliverAll_consistent _ b h

theorem Bridge.step_consistent (source : MyObservable) (b : Bridge) (s : IterStep)
    (h : b.Consistent) : (b.step source s).Consistent := by
  cases s with
  | pull => exact Bridge.next_consistent source b h
  | source c => exact Bridge.sourceCall_consistent b c h
  | ret => exact Bridge.return_consistent b h
  | throw e => exact Bridge.throw_consistent b e h

theorem Bridge.handle_consistent (b : Bridge) (e : BridgeEvent) (h : b.Consistent) :
    (b.handle e).Consistent := by
  cases e with
  | push v => exact Bridge.onNext_consistent b v h
  | complete => exact Bridge.handleComplete_consistent b
  | fail e => exact Bridge.handleError_consistent b e
  | pull => exact Bridge.pull_consistent b h
  | ret => exact Bridge.return_consistent b h
  | throw e => exact Bridge.throw_consistent b e h

theorem Bridge.run_consistent (source : MyObservable) (steps : List IterStep) (b : Bridge)
    (h : b.Consistent) : (Bridge.run source steps b).Consistent := by
  induction steps generalizing b with
  | nil => exact h
  | cons s steps ih => exact ih _ (Bridge.step_consistent source b s h)

theorem Bridge.handleAll_consistent (events : List BridgeEvent) (b : Bridge)
    (h : b.Consistent) : (events.foldl Bridge.handle b).Consistent := by
  induction events generalizing b with
  | nil => exact h
  | cons e es ih => exact ih _ (Bridge.handle_consistent b e h)

theorem serve_nil_values (ids : List Nat) :
    serve ids [] = ids.map fun id => (id, IterResult.done) := by
  induction ids with
  | nil => rfl
  | cons id ids ih => simp [serve, ih]

theorem serve_append_nil (a b : List Nat) :
    serve (a ++ b) [] = (a.map fun id => (id, IterResult.done)) ++ serve b [] := by
  simp [serve_nil_values]

theorem serve_range (m p : Nat) (vs : List Value) :
    serve (List.range' p m) vs = (List.range' p m).map fun i => (i, expectedPull vs (i - p)) := by
  induction m generalizing p vs with
  | zero => simp [serve]
  | succ m ih =>
    rw [List.range'_succ]
    cases vs with
    | nil =>
      simp only [serve, List.map_cons, Nat.sub_self]
      rw [ih]
      simp [expectedPull]
    | cons v vs =>
      simp only [serve, List.map_cons, Nat.sub_self]
      rw [ih]
      simp only [expectedPull, List.getElem?_cons_zero, List.cons.injEq, true_and]
      apply List.map_congr_left
      intro i hi
      have hp : p + 1 ≤ i := (List.mem_range'_1.mp hi).1
      have : i - p = (i - (p + 1)) + 1 := by omega
      rw [this, List.getElem?_cons_succ]

theorem MySubscriber.isStopped_eta (s : MySubscriber) (b : Bool) (h : s.isStopped = b) :
    s = { s with isStopped := b } := by
  cases s
  simp only at h
  subst h
  rfl

theorem cmd_run_bridge (c : Cmd) (s : MySubscriber) (log : List Event) (hc : s.closed = false)
    (hd : s.destination.partialObserver = Bridge.observer) :
    c.run s log =
      ⟨{ s with isStopped := s.isStopped || c.isTerminal },
        log ++ (if s.isStopped then [] else c.event), .ok ()⟩ := by
  by_cases hs : s.isStopped = true
  · cases c with
    | unsubscribe =>
      simp only [Cmd.run, MySubscriber.unsubscribe_open s log hc, Cmd.isTerminal, hs]
      simp
      exact MySubscriber.isStopped_eta s true hs
    | next v => simp [Cmd.run, MySubscriber.next, hs]; exact MySubscriber.isStopped_eta s true hs
    | error e => simp [Cmd.run, MySubscriber.error, hs]; exact MySubscriber.isStopped_eta s true hs
    | complete =>
      simp [Cmd.run, MySubscriber.complete, hs]; exact MySubscriber.isStopped_eta s true hs
  · have hs' : s.isStopped = false := by simpa using hs
    cases c with
    | unsubscribe =>
      simp only [Cmd.run, MySubscriber.unsubscribe_open s log hc, Cmd.isTerminal, hs']
      simp [Cmd.event]
      exact MySubscriber.isStopped_eta s false hs'
    | next v =>
      simp only [Cmd.run, MySubscriber.next_open s v log hc hs', hd, Bridge.observer, hs',
        Cmd.isTerminal, Cmd.event]
      simp [thrownOr]
      exact MySubscriber.isStopped_eta s false hs'
    | error e =>
      simp only [Cmd.run, MySubscriber.error_open s e log hc hs', hd, Bridge.observer, hs',
        Cmd.isTerminal, Cmd.event]
      simp [thrownOr]
    | complete =>
      simp only [Cmd.run, MySubscriber.complete_open s log hc hs', hd, Bridge.observer, hs',
        Cmd.isTerminal, Cmd.event]
      simp [thrownOr]

theorem Bridge.next_of_subscribed (src : MyObservable) (b : Bridge) (sub : MySubscriber)
    (h : b.subscription = some sub) : b.next src = b.pull := by
  unfold Bridge.next
  rw [h]

theorem Bridge.pull_cons (b : Bridge) (v : Value) (rest : List Value) (h : b.values = v :: rest) :
    b.pull = { b with values := rest, pulls := b.pulls + 1,
                      settled := b.settled ++ [(b.pulls, .value v)] } := by
  unfold Bridge.pull
  rw [h]

theorem Bridge.pull_completed (b : Bridge) (h : b.values = []) (hc : b.completed = true) :
    b.pull = { b with pulls := b.pulls + 1, settled := b.settled ++ [(b.pulls, .done)] } := by
  unfold Bridge.pull
  rw [h]
  simp [hc]

theorem Bridge.pull_park (b : Bridge) (h : b.values = []) (hc : b.completed = false)
    (he : b.hasError = false) :
    b.pull = { b with pulls := b.pulls + 1, deferreds := b.deferreds ++ [b.pulls] } := by
  unfold Bridge.pull
  rw [h]
  simp [hc, he]

theorem Bridge.run_completed (src : MyObservable) (steps : List IterStep) (b : Bridge)
    (hsub : ∃ sub, b.subscription = some sub) (hc : b.completed = true)
    (hd : b.deferreds = []) (hp : ∀ s ∈ steps, s = IterStep.pull) :
    (Bridge.run src steps b).settled =
      b.settled ++ serve (List.range' b.pulls steps.length) b.values ∧
    (Bridge.run src steps b).deferreds = [] := by
  induction steps generalizing b with
  | nil => simp [Bridge.run, serve, hd]
  | cons s steps ih =>
    obtain ⟨sub, hsub⟩ := hsub
    have hs : s = IterStep.pull := hp s (List.mem_cons_self _ _)
    have hp' : ∀ t ∈ steps, t = IterStep.pull := fun t ht => hp t (List.mem_cons_of_mem _ ht)
    subst hs
    have hrun : Bridge.run src (IterStep.pull :: steps) b = Bridge.run src steps b.pull := by
      simp only [Bridge.run, List.foldl_cons, Bridge.step, Bridge.next_of_subscribed src b sub hsub]
    rw [hrun]
    cases hv : b.values with
    | cons v rest =>
      have hpull := Bridge.pull_cons b v rest hv
      obtain ⟨i1, i2⟩ := ih b.pull (by rw [hpull]; exact ⟨sub, hsub⟩) (by rw [hpull]; exact hc)
        (by rw [hpull]; exact hd) hp'
      refine ⟨?_, i2⟩
      rw [i1, hpull]
      simp [List.range'_succ, serve]
    | nil =>
      have hpull := Bridge.pull_completed b hv hc
      obtain ⟨i1, i2⟩ := ih b.pull (by rw [hpull]; exact ⟨sub, hsub⟩) (by rw [hpull]; exact hc)
        (by rw [hpull]; exact hd) hp'
      refine ⟨?_, i2⟩
      rw [i1, hpull]
      simp [List.range'_succ, serve, hv]

theorem Bridge.sourceCall_active (b : Bridge) (c : Cmd) (h : b.Active) :
    ∃ sub, sub.closed = false ∧ sub.destination.partialObserver = Bridge.observer ∧
      sub.isStopped = c.isTerminal ∧
      b.sourceCall c = { c.event.foldl Bridge.deliver b with subscription := some sub } := by
  obtain ⟨⟨sub, h1, h2, h3, h4⟩, -⟩ := h
  refine ⟨{ sub with isStopped := sub.isStopped || c.isTerminal }, h2, h4, by simp [h3], ?_⟩
  unfold Bridge.sourceCall
  rw [h1]
  simp only [cmd_run_bridge c sub [] h2 h4, h3]
  rfl

theorem Bridge.sourceCall_next (b : Bridge) (v : Value) (h : b.Active) :
    (b.sourceCall (.next v)).Active ∧
    (b.sourceCall (.next v)).pulls = b.pulls ∧
    (b.sourceCall (.next v)).settled = (b.onNext v).settled ∧
    (b.sourceCall (.next v)).deferreds = (b.onNext v).deferreds ∧
    (b.sourceCall (.next v)).values = (b.onNext v).values := by
  obtain ⟨sub, s1, s2, s3, heq⟩ := Bridge.sourceCall_active b (.next v) h
  obtain ⟨-, a2, a3, a4⟩ := h
  rw [heq]
  have hc : (b.onNext v).Consistent :=
    Bridge.onNext_consistent b v ⟨a4, Or.inl (by simp [a2, a3])⟩
  refine ⟨⟨⟨sub, rfl, s1, s3, s2⟩, ?_, ?_, hc.1⟩, ?_, rfl, rfl, rfl⟩
  · show (b.onNext v).completed = false
    unfold Bridge.onNext
    cases b.deferreds <;> exact a2
  · show (b.onNext v).hasError = false
    unfold Bridge.onNext
    cases b.deferreds <;> exact a3
  · show (b.onNext v).pulls = b.pulls
    unfold Bridge.onNext
    cases b.deferreds <;> rfl

theorem Bridge.sourceCall_complete (b : Bridge) (h : b.Active) :
    (∃ sub, (b.sourceCall .complete).subscription = some sub) ∧
    (b.sourceCall .complete).completed = true ∧
    (b.sourceCall .complete).deferreds = [] ∧
    (b.sourceCall .complete).pulls = b.pulls ∧
    (b.sourceCall .complete).values = b.values ∧
    (b.sourceCall .complete).settled =
      b.settled ++ b.deferreds.map fun id => (id, IterResult.done) := by
  obtain ⟨sub, -, -, -, heq⟩ := Bridge.sourceCall_active b .complete h
  rw [heq]
  exact ⟨⟨sub, rfl⟩, rfl, rfl, rfl, rfl, rfl⟩

theorem Bridge.pull_active (b : Bridge) (h : b.Active) :
    b.pull.Active ∧ b.pull.pulls = b.pulls + 1 ∧
    ((∃ v rest, b.values = v :: rest ∧ b.deferreds = [] ∧ b.pull.values = rest ∧
        b.pull.deferreds = [] ∧ b.pull.settled = b.settled ++ [(b.pulls, .value v)]) ∨
     (b.values = [] ∧ b.pull.values = [] ∧ b.pull.deferreds = b.deferreds ++ [b.pulls] ∧
        b.pull.settled = b.settled)) := by
  obtain ⟨a1, a2, a3, a4⟩ := h
  cases hv : b.values with
  | cons v rest =>
    have hd : b.deferreds = [] := by
      rcases a4 with h | h
      · rw [hv] at h; cases h
      · exact h
    rw [Bridge.pull_cons b v rest hv]
    exact ⟨⟨a1, a2, a3, Or.inr hd⟩, rfl, Or.inl ⟨v, rest, rfl, hd, rfl, hd, rfl⟩⟩
  | nil =>
    rw [Bridge.pull_park b hv a2 a3]
    exact ⟨⟨a1, a2, a3, Or.inl hv⟩, rfl, Or.inr ⟨rfl, hv, rfl, rfl⟩⟩

theorem pulls_of_no_source (steps : List IterStep)
    (hps : ∀ s ∈ steps, s.isPullOrSource = true)
    (hsrc : steps.filterMap IterStep.sourceCmd = []) :
    (∀ s ∈ steps, s = IterStep.pull) ∧ steps.count IterStep.pull = steps.length := by
  induction steps with
  | nil => simp
  | cons s steps ih =>
    have h1 := hps s (List.mem_cons_self _ _)
    have h2 : ∀ t ∈ steps, t.isPullOrSource = true :=
      fun t ht => hps t (List.mem_cons_of_mem _ ht)
    cases s with
    | pull =>
      simp only [List.filterMap_cons, IterStep.sourceCmd] at hsrc
      obtain ⟨i1, i2⟩ := ih h2 hsrc
      refine ⟨fun t ht => ?_, by simp [i2]⟩
      rcases List.mem_cons.mp ht with h | h
      · exact h
      · exact i1 t h
    | source c => simp [List.filterMap_cons, IterStep.sourceCmd] at hsrc
    | ret => simp [IterStep.isPullOrSource] at h1
    | throw e => simp [IterStep.isPullOrSource] at h1

theorem Bridge.run_of_active (src : MyObservable) (steps : List IterStep) (rest : List Value)
    (b : Bridge) (hact : b.Active) (hps : ∀ s ∈ steps, s.isPullOrSource = true)
    (hsrc : steps.filterMap IterStep.sourceCmd = rest.map Cmd.next ++ [Cmd.complete]) :
    (Bridge.run src steps b).settled =
      b.settled ++
        serve (b.deferreds ++ List.range' b.pulls (steps.count IterStep.pull)) (b.values ++ rest) ∧
    (Bridge.run src steps b).deferreds = [] := by
  induction steps generalizing b rest with
  | nil => simp at hsrc
  | cons s steps ih =>
    have h1 := hps s (List.mem_cons_self _ _)
    have h2 : ∀ t ∈ steps, t.isPullOrSource = true :=
      fun t ht => hps t (List.mem_cons_of_mem _ ht)
    cases s with
    | ret => simp [IterStep.isPullOrSource] at h1
    | throw e => simp [IterStep.isPullOrSource] at h1
    | pull =>
      simp only [List.filterMap_cons, IterStep.sourceCmd] at hsrc
      obtain ⟨⟨sub, hsub, -⟩, -⟩ := id hact
      have hrun : Bridge.run src (IterStep.pull :: steps) b = Bridge.run src steps b.pull := by
        simp only [Bridge.run, List.foldl_cons, Bridge.step,
          Bridge.next_of_subscribed src b sub hsub]
      obtain ⟨p1, p2, p3⟩ := Bridge.pull_active b hact
      obtain ⟨i1, i2⟩ := ih rest b.pull p1 h2 hsrc
      rw [hrun]
      refine ⟨?_, i2⟩
      rw [i1, p2]
      rcases p3 with ⟨v, vs, q1, q2, q3, q4, q5⟩ | ⟨q1, q2, q3, q4⟩
      · rw [q3, q4, q5, q1, q2]
        simp [List.range'_succ, serve]
      · rw [q2, q3, q4, q1]
        simp [List.range'_succ]
    | source c =>
      simp only [List.filterMap_cons, IterStep.sourceCmd] at hsrc
      have hrun : Bridge.run src (IterStep.source c :: steps) b =
          Bridge.run src steps (b.sourceCall c) := by
        simp only [Bridge.run, List.foldl_cons, Bridge.step]
      rw [hrun]
      have hcount : (IterStep.source c :: steps).count IterStep.pull =
          steps.count IterStep.pull := by
        simp [List.count_cons]
      rw [hcount]
      cases rest with
      | cons v rest' =>
        simp only [List.map_cons, List.cons_append, List.cons.injEq] at hsrc
        obtain ⟨hc, hsrc'⟩ := hsrc
        subst hc
        obtain ⟨n1, n2, n3, n4, n5⟩ := Bridge.sourceCall_next b v hact
        obtain ⟨i1, i2⟩ := ih rest' (b.sourceCall (.next v)) n1 h2 hsrc'
        refine ⟨?_, i2⟩
        rw [i1, n2, n3, n4, n5]
        obtain ⟨-, -, -, a4⟩ := hact
        unfold Bridge.onNext
        cases hd : b.deferreds with
        | nil => simp
        | cons d ds =>
          have hv : b.values = [] := by
            rcases a4 with h | h
            · exact h
            · rw [hd] at h; cases h
          simp [hv, serve]
      | nil =>
        simp only [List.map_nil, List.nil_append, List.cons.injEq] at hsrc
        obtain ⟨hc, hsrc'⟩ := hsrc
        subst hc
        obtain ⟨c1, c2, c3, c4, c5, c6⟩ := Bridge.sourceCall_complete b hact
        obtain ⟨q1, q2⟩ := pulls_of_no_source steps h2 hsrc'
        obtain ⟨i1, i2⟩ := Bridge.run_completed src steps (b.sourceCall .complete) c1 c2 c3 q1
        refine ⟨?_, i2⟩
        rw [i1, c4, c5, c6, q2]
        obtain ⟨-, -, -, a4⟩ := hact
        rcases a4 with h | h
        · rw [h]
          simp [serve_nil_values]
        · rw [h]
          simp

theorem Bridge.deliver_withSubscription (b : Bridge) (x : Option MySubscriber) (e : Event) :
    Bridge.deliver { b with subscription := x } e = { b.deliver e with subscription := x } := by
  cases e with
  | next v =>
    simp only [Bridge.deliver, Bridge.onNext]
    cases b.deferreds <;> rfl
  | error e => rfl
  | complete => rfl
  | ran _ => rfl

theorem Bridge.deliverAll_withSubscription (es : List Event) (b : Bridge)
    (x : Option MySubscriber) :
    es.foldl Bridge.deliver { b with subscription := x } =
      { es.foldl Bridge.deliver b with subscription := x } := by
  induction es generalizing b with
  | nil => rfl
  | cons e es ih => simp only [List.foldl_cons, Bridge.deliver_withSubscription, ih]

theorem Bridge.sourceCalls_of_runCmds (cs : List Cmd) (sub : MySubscriber) (log : List Event)
    (b : Bridge) (hc : sub.closed = false)
    (hd : sub.destination.partialObserver = Bridge.observer) :
    (runCmds cs sub log).result = .ok () ∧ (runCmds cs sub log).state.closed = false ∧
    ∃ tr, (runCmds cs sub log).log = log ++ tr ∧
      cs.foldl Bridge.sourceCall { b with subscription := some sub } =
        { tr.foldl Bridge.deliver b with subscription := some (runCmds cs sub log).state } := by
  induction cs generalizing sub log b with
  | nil => exact ⟨rfl, hc, [], by simp [runCmds], rfl⟩
  | cons c cs ih =>
    have hrun := cmd_run_bridge c sub log hc hd
    have hrun0 := cmd_run_bridge c sub [] hc hd
    obtain ⟨i1, i2, tr, i3, i4⟩ := ih { sub with isStopped := sub.isStopped || c.isTerminal }
      (log ++ (if sub.isStopped then [] else c.event))
      ((if sub.isStopped then [] else c.event).foldl Bridge.deliver b) hc hd
    have hstep : runCmds (c :: cs) sub log =
        runCmds cs { sub with isStopped := sub.isStopped || c.isTerminal }
          (log ++ (if sub.isStopped then [] else c.event)) := by
      simp only [runCmds, hrun]
    rw [hstep]
    refine ⟨i1, i2, (if sub.isStopped then [] else c.event) ++ tr, ?_, ?_⟩
    · rw [i3, List.append_assoc]
    · rw [List.foldl_append, ← i4, List.foldl_cons]
      congr 1
      simp only [Bridge.sourceCall, hrun0, List.nil_append]
      rw [Bridge.deliverAll_withSubscription]

theorem Bridge.first_next (sync : Script) (hthrows : sync.throws = none) :
    Bridge.next (MyObservable.ofScript sync) {} =
      Bridge.pull (sync.body.foldl Bridge.sourceCall
        { subscription := some (MySubscriber.new (.observer Bridge.observer) none) }) := by
  obtain ⟨h1, h2, tr, h3, h4⟩ := Bridge.sourceCalls_of_runCmds sync.body
    (MySubscriber.new (.observer Bridge.observer) none) [] {} rfl rfl
  have hsub : (MyObservable.ofScript sync).subscribe (.other (.observer Bridge.observer)) [] =
      ⟨(runCmds sync.body (MySubscriber.new (.observer Bridge.observer) none) []).state,
        tr, .ok ()⟩ := by
    simp only [MyObservable.subscribe, MyObservable.trySubscribe, MyObservable.ofScript,
      ObserverArg.toSubscriber, Script.run, h1, hthrows]
    simp only [MySubscriber.add, MySubscription.add]
    have h2' : (runCmds sync.body (MySubscriber.new (.observer Bridge.observer) none)
        []).state.toMySubscription.closed = false := h2
    cases sync.returns with
    | none => simp [h3]
    | some t => simp [h2', h3]
  unfold Bridge.next
  simp only [hsub]
  rw [h4]

theorem Bridge.sourceCalls_eq_run (src : MyObservable) (cs : List Cmd) (b : Bridge) :
    cs.foldl Bridge.sourceCall b = Bridge.run src (cs.map IterStep.source) b := by
  induction cs generalizing b with
  | nil => rfl
  | cons c cs ih => simp only [List.foldl_cons, List.map_cons, Bridge.run, Bridge.step, ih]

theorem fromPromise.settled_open (settlement : Settlement) (s : MySubscriber) (log : List Event)
    (hc : s.closed = false) (hs : s.isStopped = false)
    (hp : s.destination.partialObserver.emitsSafely) :
    (fromPromise.settled settlement s log).log =
      log ++ settlement.calls.flatMap s.destination.partialObserver.entry ∧
    (fromPromise.settled settlement s log).state.closed = false ∧
    (fromPromise.settled settlement s log).state.destination = s.destination ∧
    ((fromPromise.settled settlement s log).result ≠ .ok () →
      (fromPromise.settled settlement s log).state.isStopped = true) := by
  obtain ⟨hn, hcm⟩ := hp
  cases settlement with
  | pending => simp [fromPromise.settled, Settlement.calls, hc]
  | rejected e =>
    simp only [fromPromise.settled, fromPromise.onRejected, Settlement.calls]
    rw [MySubscriber.error_open _ _ _ hc hs]
    cases he : s.destination.partialObserver.error with
    | none => simp [PartialObserver.entry, he, hc]
    | some h => simp [PartialObserver.entry, he, hc]
  | fulfilled v =>
    simp only [fromPromise.settled, fromPromise.onFulfilled, Settlement.calls, hc,
      Bool.false_eq_true, if_false]
    rw [MySubscriber.next_open _ _ _ hc hs]
    cases hnx : s.destination.partialObserver.next with
    | none =>
      simp only
      rw [MySubscriber.complete_open _ _ hc hs]
      cases hcp : s.destination.partialObserver.complete with
      | none => simp [PartialObserver.entry, hnx, hcp, hc]
      | some h => simp [PartialObserver.entry, hnx, hcp, hc, hcm h hcp, thrownOr]
    | some hx =>
      simp only [hn hx v hnx, thrownOr]
      rw [MySubscriber.complete_open _ _ hc hs]
      cases hcp : s.destination.partialObserver.complete with
      | none => simp [PartialObserver.entry, hnx, hcp, hc]
      | some h => simp [PartialObserver.entry, hnx, hcp, hc, hcm h hcp, thrownOr]

theorem async_iterable_sample_trace :
    ((fromAsyncIterable (some { values := [.num 1, .num 2] })).subscribe
      (.other (.observer fullObserver)) []).log = [] ∧
    ((fromAsyncIterable (some { values := [.num 1, .num 2] })).settle
      ((fromAsyncIterable (some { values := [.num 1, .num 2] })).subscribe
        (.other (.observer fullObserver)) [])).log =
      [.next (.num 1), .next (.num 2), .complete] ∧
    ((fromAsyncIterable (some { values := [.num 1], failure := some (.str "f") })).settle
      ((fromAsyncIterable (some { values := [.num 1], failure := some (.str "f") })).subscribe
        (.other (.observer fullObserver)) [])).log =
      [.next (.num 1), .error (.str "f")] := by
  decide

theorem readable_stream_sample_trace :
    ((fromReadableStreamLike sampleStream).settle
      ((fromReadableStreamLike sampleStream).subscribe (.other (.observer fullObserver))
        [])).log = [.next (.num 1), .next (.num 2), .ran 9, .complete] ∧
    ((fromReadableStreamLike failingStream).settle
      ((fromReadableStreamLike failingStream).subscribe (.other (.observer fullObserver))
        [])).log = [.next (.num 1), .ran 9, .error (.str "f")] ∧
    ((fromReadableStreamLike sampleStream).settle
      ((fromReadableStreamLike sampleStream).subscribe
        (.other (.observer { fullObserver with next := some (throwing (.str "x")) }))
        [])).log = [.next (.num 1), .ran 9, .error (.str "x")] := by
  decide

theorem symbol_input_error :
    thrownBy (MyFrom (.value Shape.symbol)) =
      some (.typeError "Cannot convert a Symbol value to a string") := by
  decide

/-! ## The claims on `MyFrom`, `pipe`, teardown and the iterator -/

/-- C11, evaluated on the string `'ab'` and on a plain object `{ length: 2, 0: a, 1: b }`: both
are classified as array-like, and subscribing delivers no element and no `complete`, only
`error` with the `TypeError` of the missing `forEach`. -/
theorem array_like_without_forEach_errors :
    MyFrom (.value (Shape.string "ab")) = .ok (fromArrayLike (Shape.string "ab")) ∧
    ((fromArrayLike (Shape.string "ab")).subscribe (.other (.observer fullObserver)) []).log =
      [.error (.typeError "array.forEach is not a function")] ∧
    MyFrom (.value Shape.arrayLikeObject) = .ok (fromArrayLike Shape.arrayLikeObject) ∧
    ((fromArrayLike Shape.arrayLikeObject).subscribe (.other (.observer fullObserver)) []).log =
      [.error (.typeError "array.forEach is not a function")] :=
  ⟨rfl, by decide, rfl, by decide⟩

/-- C12 is false as stated: the classifier takes a thenable whose `then` returns nothing for a
promise, and when it resolves with `1` the observer receives neither `next(1)` nor
`complete()`, only `error` with the `TypeError` of the second `then`, thrown inside the
subscribe function. -/
theorem then_without_result_yields_error :
    getObservableInputType (.value thenWithoutResult) = .ok .Promise ∧
    MyFrom (.value thenWithoutResult) = .ok (fromPromise thenWithoutResult) ∧
    ((fromPromise thenWithoutResult).subscribe (.other (.observer fullObserver)) []).log =
      [.error (.typeError "Cannot read properties of undefined (reading 'then')")] ∧
    ((fromPromise thenWithoutResult).settle
      ((fromPromise thenWithoutResult).subscribe (.other (.observer fullObserver)) [])).log =
      [.error (.typeError "Cannot read properties of undefined (reading 'then')")] :=
  ⟨rfl, rfl, by decide, by decide⟩

/-- C12, as amended.  Let the classifier answer `Promise` for an input whose `then` returns a
promise-like, and let the `next` and `complete` handlers of the observer return normally.  Then
`MyFrom` gives the promise adapter, `subscribe` returns normally, and once the callbacks have
run the trace has grown by exactly `error(x)` if the promise rejected with `x`, and by
`next(v)` then `complete()` if it resolved with `v`, each entry present when the observer has
the handler.  A promise, which calls back in a later turn, delivers nothing before `subscribe`
returns; a thenable that calls back inside `then` delivers the same entries there. -/
theorem from_promise_delivers_settlement (v : Shape) (t : Thenable) (d : ObserverOrNext)
    (log : List Event)
    (hclass : getObservableInputType (.value v) = .ok .Promise)
    (ht : v.thenable = some t) (hchain : t.chainable = true)
    (hp : (createSaveObserver d).partialObserver.emitsSafely) :
    MyFrom (.value v) = .ok (fromPromise v) ∧
    ((fromPromise v).subscribe (.other d) log).result = .ok () ∧
    (t.synchronous = false → ((fromPromise v).subscribe (.other d) log).log = log) ∧
    ((fromPromise v).settle ((fromPromise v).subscribe (.other d) log)).log =
      log ++ t.settlement.calls.flatMap (createSaveObserver d).partialObserver.entry := by
  have hfrom : MyFrom (.value v) = .ok (fromPromise v) := by
    simp only [MyFrom, hclass]
  obtain ⟨s1, s2, s3, s4⟩ := fromPromise.settled_open t.settlement (MySubscriber.new d none) log
    rfl rfl hp
  by_cases hsync : t.synchronous = true
  · -- the callback runs inside `then`
    have hsub : ((fromPromise v).subscribe (.other d) log).result = .ok () ∧
        ((fromPromise v).subscribe (.other d) log).log =
          log ++ t.settlement.calls.flatMap (createSaveObserver d).partialObserver.entry := by
      simp only [MyObservable.subscribe, MyObservable.trySubscribe, fromPromise,
        fromPromise.subscribeFn, ObserverArg.toSubscriber, ht, hsync, if_true, hchain]
      cases hres : (fromPromise.settled t.settlement (MySubscriber.new d none) log).result with
      | ok u =>
        simp only [MySubscriber.add, MySubscription.add]
        constructor <;> first | exact s1 | trivial
      | error e =>
        have hstop := s4 (by rw [hres]; simp)
        cases t.rethrows with
        | false =>
          simp only [MySubscriber.add, MySubscription.add]
          constructor <;> first | exact s1 | trivial
        | true =>
          simp only [MySubscriber.error, hstop, Bool.not_true, Bool.false_eq_true, if_false,
            MySubscriber.add, MySubscription.add]
          constructor <;> first | exact s1 | trivial
    refine ⟨hfrom, hsub.1, fun (h : t.synchronous = false) => ?_, ?_⟩
    · rw [hsync] at h; cases h
    · simp only [MyObservable.settle, fromPromise, fromPromise.later, ht, hsync, if_true]
      exact hsub.2
  · have hsync' : t.synchronous = false := by simpa using hsync
    have hsub : (fromPromise v).subscribe (.other d) log =
        ⟨MySubscriber.new d none, log, .ok ()⟩ := by
      simp only [MyObservable.subscribe, MyObservable.trySubscribe, fromPromise,
        fromPromise.subscribeFn, ObserverArg.toSubscriber, ht, hsync', hchain]
      cases t.rethrows <;> rfl
    refine ⟨hfrom, by rw [hsub], fun _ => by rw [hsub], ?_⟩
    rw [hsub]
    simp only [MyObservable.settle, fromPromise, fromPromise.later, ht, hsync']
    exact s1

/-- C12 as amended, at a promise rejected with `x`, which yields exactly one `error(x)` after `subscribe`
has returned, and at a thenable that resolves with `1` inside `then`, both with an observer
with the three handlers. -/
theorem from_promise_delivers_settlement_witness :
    getObservableInputType (.value (Shape.promise (.rejected (.str "x")))) = .ok .Promise ∧
    (Shape.promise (.rejected (.str "x"))).thenable = some { settlement := .rejected (.str "x") } ∧
    (createSaveObserver (.observer fullObserver)).partialObserver.emitsSafely ∧
    ((fromPromise (Shape.promise (.rejected (.str "x")))).subscribe
      (.other (.observer fullObserver)) []).log = [] ∧
    ((fromPromise (Shape.promise (.rejected (.str "x")))).settle
      ((fromPromise (Shape.promise (.rejected (.str "x")))).subscribe
        (.other (.observer fullObserver)) [])).log = [Event.error (.str "x")] ∧
    ((fromPromise eagerThenable).settle
      ((fromPromise eagerThenable).subscribe (.other (.observer fullObserver)) [])).log =
        [Event.next (.num 1), Event.complete] :=
  ⟨rfl, rfl, fullObserver_emitsSafely,
    (from_promise_delivers_settlement (Shape.promise (.rejected (.str "x")))
      { settlement := .rejected (.str "x") } (.observer fullObserver) [] rfl rfl rfl
      fullObserver_emitsSafely).2.2.1 rfl,
    (from_promise_delivers_settlement (Shape.promise (.rejected (.str "x")))
      { settlement := .rejected (.str "x") } (.observer fullObserver) [] rfl rfl rfl
      fullObserver_emitsSafely).2.2.2,
    (from_promise_delivers_settlement eagerThenable
      { settlement := .fulfilled (.num 1), synchronous := true, rethrows := true }
      (.observer fullObserver) [] rfl rfl rfl fullObserver_emitsSafely).2.2.2⟩

/-- C13. Let a source push `vs` and then complete, the calls before `later` during `subscribe`
and the calls `later` afterwards, and let `steps` interleave the calls `later`, in order, with
any number of pulls after the first pull.  Then every pull is settled, in the order of the
pulls, and the pull of rank `i` ends with `{ value: vs[i], done: false }` if `i` is below the
number of values and with `{ value: undefined, done: true }` otherwise. -/
theorem async_iterator_round_trip (vs : List Value) (sync : Script) (later : List Cmd)
    (steps : List IterStep)
    (hsplit : sync.body ++ later = vs.map Cmd.next ++ [Cmd.complete])
    (hthrows : sync.throws = none)
    (hps : ∀ s ∈ steps, s.isPullOrSource = true)
    (hsrc : steps.filterMap IterStep.sourceCmd = later) :
    (Bridge.run (MyObservable.ofScript sync) (IterStep.pull :: steps) {}).settled =
      (List.range (1 + steps.count IterStep.pull)).map (fun i => (i, expectedPull vs i)) ∧
    (Bridge.run (MyObservable.ofScript sync) (IterStep.pull :: steps) {}).deferreds = [] := by
  obtain ⟨-, -, tr, -, h4⟩ := Bridge.sourceCalls_of_runCmds sync.body
    (MySubscriber.new (.observer Bridge.observer) none) [] {} rfl rfl
  have hrun : Bridge.run (MyObservable.ofScript sync) (IterStep.pull :: steps) {} =
      Bridge.run (MyObservable.ofScript sync)
        (sync.body.map IterStep.source ++ IterStep.pull :: steps)
        { subscription := some (MySubscriber.new (.observer Bridge.observer) none) } := by
    simp only [Bridge.run, List.foldl_cons, List.foldl_append, Bridge.step]
    rw [Bridge.first_next sync hthrows]
    congr 1
    rw [← Bridge.run, ← Bridge.sourceCalls_eq_run]
    rw [Bridge.next_of_subscribed _ _ _ (by rw [h4])]
  have hact : Bridge.Active
      { subscription := some (MySubscriber.new (.observer Bridge.observer) none) } :=
    ⟨⟨_, rfl, rfl, rfl, rfl⟩, rfl, rfl, Or.inl rfl⟩
  have hps' : ∀ s ∈ sync.body.map IterStep.source ++ IterStep.pull :: steps,
      s.isPullOrSource = true := by
    intro s hs
    rcases List.mem_append.mp hs with h | h
    · obtain ⟨c, -, rfl⟩ := List.mem_map.mp h
      rfl
    · rcases List.mem_cons.mp h with h | h
      · subst h; rfl
      · exact hps s h
  have hmap : ∀ cs : List Cmd, (cs.map IterStep.source).filterMap IterStep.sourceCmd = cs := by
    intro cs
    induction cs with
    | nil => rfl
    | cons c cs ih => simp [List.filterMap_cons, IterStep.sourceCmd, ih]
  have hcnt : ∀ cs : List Cmd, (cs.map IterStep.source).count IterStep.pull = 0 := by
    intro cs
    induction cs with
    | nil => rfl
    | cons c cs ih => simp [List.count_cons, ih]
  have hsrc' : (sync.body.map IterStep.source ++ IterStep.pull :: steps).filterMap
      IterStep.sourceCmd = vs.map Cmd.next ++ [Cmd.complete] := by
    rw [List.filterMap_append, hmap, List.filterMap_cons]
    simp only [IterStep.sourceCmd, hsrc, hsplit]
  obtain ⟨r1, r2⟩ := Bridge.run_of_active (MyObservable.ofScript sync) _ vs _ hact hps' hsrc'
  rw [hrun]
  refine ⟨?_, r2⟩
  rw [r1]
  simp only [List.nil_append, List.count_append, hcnt, List.count_cons_self, Nat.zero_add]
  rw [serve_range, List.range_eq_range', Nat.add_comm]
  simp

/-- C13 at the source `a, b, complete`, pushing after two pulls were parked and pushing during
`subscribe`: the pulls end with `a`, `b`, `done` in both. -/
theorem async_iterator_round_trip_witness :
    emitsLater.body ++ [Cmd.next (.str "a"), Cmd.next (.str "b"), Cmd.complete] =
      [Value.str "a", Value.str "b"].map Cmd.next ++ [Cmd.complete] ∧
    emitsLater.throws = none ∧
    (∀ s ∈ pullsBeforePushes, s.isPullOrSource = true) ∧
    pullsBeforePushes.filterMap IterStep.sourceCmd =
      [Cmd.next (.str "a"), Cmd.next (.str "b"), Cmd.complete] ∧
    (Bridge.run (MyObservable.ofScript emitsLater) (IterStep.pull :: pullsBeforePushes)
      {}).settled =
      [(0, .value (.str "a")), (1, .value (.str "b")), (2, .done)] ∧
    (Bridge.run (MyObservable.ofScript emitsAtOnce) [IterStep.pull, IterStep.pull, IterStep.pull]
      {}).settled =
      [(0, .value (.str "a")), (1, .value (.str "b")), (2, .done)] :=
  ⟨rfl, rfl, by decide, rfl,
    (async_iterator_round_trip [.str "a", .str "b"] emitsLater
      [Cmd.next (.str "a"), Cmd.next (.str "b"), Cmd.complete] pullsBeforePushes rfl rfl
      (by decide) rfl).1,
    (async_iterator_round_trip [.str "a", .str "b"] emitsAtOnce [] [IterStep.pull, IterStep.pull]
      rfl rfl (by decide) rfl).1⟩

/-- C14. `pipe()` returns the observable itself, `pipe(f, g)` is `g(f(s))`, and in general
`pipe` applies its operations from left to right: piping `f` and then `fs` is piping `fs` on
`f(s)`, and piping `fs` and then `g` is `g` of piping `fs`. -/
theorem pipe_composes_left_to_right (s : MyObservable)
    (fs : List (MyObservable → MyObservable)) (f g : MyObservable → MyObservable) :
    s.pipe [] = s ∧ s.pipe [f, g] = g (f s) ∧ s.pipe (f :: fs) = (f s).pipe fs ∧
    s.pipe (fs ++ [g]) = g (s.pipe fs) := by
  refine ⟨rfl, rfl, rfl, ?_⟩
  simp [MyObservable.pipe, List.foldl_append]

/-- C15. A `MyObservable` has `Own` as its first shape and `MyFrom` returns it unchanged.  For
any other value that is not `null` or `undefined`, the classifier answers the first shape of
the priority order that the value has, and `MyFrom` returns the wrapper of that shape; when
the value has none of the shapes both throw what the final `throw` of the classifier throws. -/
theorem from_dispatches_on_first_shape (o : MyObservable) (v : Shape) :
    firstShape (.own o) = some .Own ∧ MyFrom (.own o) = .ok o ∧
    getObservableInputType (.value v) =
      (match firstShape (.value v) with
        | some t => .ok t
        | none => .error (invalidInputError (.value v))) ∧
    MyFrom (.value v) =
      (match (firstShape (.value v)).bind (adapterOf v) with
        | some adapter => .ok adapter
        | none => .error (invalidInputError (.value v))) := by
  refine ⟨rfl, rfl, ?_, ?_⟩
  · by_cases h1 : v.observable.isSome = true <;>
    by_cases h2 : (v.truthy && v.lengthIsNumber && !v.callable) = true <;>
    by_cases h3 : v.thenable.isSome = true <;>
    by_cases h4 : v.asyncIterable.isSome = true <;>
    by_cases h5 : v.iterable.isSome = true <;>
    by_cases h6 : v.getReader.isSome = true <;>
    simp only [getObservableInputType, isInteropObservable, firstShape, shapePriority,
      List.find?, Input.hasShape, isArrayLike, isPromise, isAsyncIterable, isIterable,
      isReadableStreamLike, h1, h2, h3, h4, h5, h6, if_true, if_false] <;>
    simp_all
  · by_cases h1 : v.observable.isSome = true <;>
    by_cases h2 : (v.truthy && v.lengthIsNumber && !v.callable) = true <;>
    by_cases h3 : v.thenable.isSome = true <;>
    by_cases h4 : v.asyncIterable.isSome = true <;>
    by_cases h5 : v.iterable.isSome = true <;>
    by_cases h6 : v.getReader.isSome = true <;>
    simp only [MyFrom, getObservableInputType, isInteropObservable, firstShape, shapePriority,
      List.find?, Input.hasShape, isArrayLike, isPromise, isAsyncIterable, isIterable,
      isReadableStreamLike, h1, h2, h3, h4, h5, h6, if_true, if_false] <;>
    simp_all [adapterOf]

/-- C16, evaluated on `null` and `undefined`: `MyFrom` throws the `TypeError` of the property
read in `isInteropObservable`, which is not the descriptive error of
`getObservableInputType`. -/
theorem nullish_input_fails_with_other_error :
    thrownBy (MyFrom .null) = some (.typeError "Cannot read properties of null") ∧
    thrownBy (MyFrom .undefined) = some (.typeError "Cannot read properties of undefined") ∧
    thrownBy (MyFrom .null) ≠ some (.typeError (invalidInputMessage .null)) ∧
    thrownBy (MyFrom .undefined) ≠ some (.typeError (invalidInputMessage .undefined)) := by
  decide

/-- C17 is false as stated: for an interop object whose method returns an object without
`subscribe`, `MyFrom` throws nothing and returns an observable; the `TypeError` reaches the
observer's `error` handler when that observable is subscribed. -/
theorem interop_without_subscribe_is_accepted_by_from :
    thrownBy (MyFrom (.value Shape.interopWithoutSubscribe)) = none ∧
    MyFrom (.value Shape.interopWithoutSubscribe) =
      .ok (fromInteropObservable Shape.interopWithoutSubscribe) ∧
    ((fromInteropObservable Shape.interopWithoutSubscribe).subscribe
      (.other (.observer fullObserver)) []).result = .ok () ∧
    ((fromInteropObservable Shape.interopWithoutSubscribe).subscribe
      (.other (.observer fullObserver)) []).log = [.error noSubscribeError] :=
  ⟨rfl, rfl, by decide, by decide⟩

/-- C17, as amended.  For an interop object whose method returns an object without a callable
`subscribe`, `MyFrom` returns the interop adapter, and the `TypeError` is raised when that
observable is subscribed: an observer whose `error` handler returns normally receives it
through that handler and `subscribe` returns normally, and with an observer without `error`
handler `subscribe` throws it. -/
theorem interop_without_subscribe_fails_on_subscribe (v : Shape) (d : ObserverOrNext)
    (log : List Event) (hv : v.observable = some .notSubscribable) :
    MyFrom (.value v) = .ok (fromInteropObservable v) ∧
    (∀ he : Value → Reaction, (createSaveObserver d).partialObserver.error = some he →
      (he noSubscribeError).throws = none →
      ((fromInteropObservable v).subscribe (.other d) log).result = .ok () ∧
      ((fromInteropObservable v).subscribe (.other d) log).log =
        log ++ [Event.error noSubscribeError]) ∧
    ((createSaveObserver d).partialObserver.error = none →
      ((fromInteropObservable v).subscribe (.other d) log).result = .error noSubscribeError ∧
      ((fromInteropObservable v).subscribe (.other d) log).log = log) := by
  refine ⟨?_, ?_, ?_⟩
  · simp [MyFrom, getObservableInputType, isInteropObservable, hv]
  · intro he hhe hq
    have hhe' : (MySubscriber.new d none).destination.partialObserver.error = some he := hhe
    simp only [MyObservable.subscribe, MyObservable.trySubscribe, fromInteropObservable, hv,
      ObserverArg.toSubscriber]
    rw [show (Value.typeError "没有标记类型Symbol.observable") = noSubscribeError from rfl,
      MySubscriber.error_open _ _ _ rfl rfl]
    simp [hhe', hq, thrownOr, MySubscriber.add, MySubscription.add]
  · intro hnone
    have hnone' : (MySubscriber.new d none).destination.partialObserver.error = none := hnone
    simp only [MyObservable.subscribe, MyObservable.trySubscribe, fromInteropObservable, hv,
      ObserverArg.toSubscriber]
    rw [show (Value.typeError "没有标记类型Symbol.observable") = noSubscribeError from rfl,
      MySubscriber.error_open _ _ _ rfl rfl]
    simp [hnone']

/-- C17 as amended, at such an object and an observer with the three handlers. -/
theorem interop_without_subscribe_fails_on_subscribe_witness :
    Shape.interopWithoutSubscribe.observable = some .notSubscribable ∧
    (createSaveObserver (.observer fullObserver)).partialObserver.error = some quiet ∧
    (quiet noSubscribeError).throws = none ∧
    MyFrom (.value Shape.interopWithoutSubscribe) =
      .ok (fromInteropObservable Shape.interopWithoutSubscribe) ∧
    ((fromInteropObservable Shape.interopWithoutSubscribe).subscribe
      (.other (.observer fullObserver)) []).result = .ok () ∧
    ((fromInteropObservable Shape.interopWithoutSubscribe).subscribe
      (.other (.observer fullObserver)) []).log = [Event.error noSubscribeError] :=
  ⟨rfl, rfl, rfl,
    (interop_without_subscribe_fails_on_subscribe Shape.interopWithoutSubscribe
      (.observer fullObserver) [] rfl).1,
    (interop_without_subscribe_fails_on_subscribe Shape.interopWithoutSubscribe
      (.observer fullObserver) [] rfl).2.1 quiet rfl rfl⟩

/-- C18, evaluated on every subscription whose `initialTeardown` throws
`new UnSubscriptionError(errors)`: `unsubscribe()` runs the teardown and returns normally, so
nothing is raised and the errors are lost. -/
theorem nested_aggregate_is_lost (errors : List Value) (id : Nat) (log : List Event) :
    ((MySubscription.new (some { id := id, throws := some (UnSubscriptionError.new errors) })
      ).unsubscribe log).result = .ok () ∧
    ((MySubscription.new (some { id := id, throws := some (UnSubscriptionError.new errors) })
      ).unsubscribe log).log = log ++ [Event.ran id] :=
  ⟨rfl, rfl⟩

/-- C19. On a closed `MySubscription`, `add(t)` runs `t` at once, exactly once, whether `t` is a
function or an object with `unsubscribe()`, throws what `t` throws and leaves the subscription
as it was; `add` of the subscription itself and `add` of nothing run nothing. -/
theorem add_on_closed_runs_at_once (s : MySubscription) (a : Action) (log : List Event)
    (hc : s.closed = true) :
    s.add (some (.fn a)) log = ⟨s, log ++ [Event.ran a.id], thrownOr a.throws⟩ ∧
    s.add (some (.unsubscribable a)) log = ⟨s, log ++ [Event.ran a.id], thrownOr a.throws⟩ ∧
    s.add (some .self) log = ⟨s, log, .ok ()⟩ ∧
    s.add none log = ⟨s, log, .ok ()⟩ := by
  refine ⟨?_, ?_, ?_, rfl⟩
  · simp only [MySubscription.add, hc, execTeardown, Action.run]
    cases a.throws <;> simp [thrownOr]
  · simp only [MySubscription.add, hc, execTeardown, Action.run]
    cases a.throws <;> simp [thrownOr]
  · simp [MySubscription.add]

/-- C19 at `MySubscription.EMPTY` and the function tagged `1`. -/
theorem add_on_closed_runs_at_once_witness :
    MySubscription.EMPTY.closed = true ∧
    MySubscription.EMPTY.add (some (.fn { id := 1 })) [] =
      ⟨MySubscription.EMPTY, [Event.ran 1], .ok ()⟩ ∧
    MySubscription.EMPTY.add (some .self) [] = ⟨MySubscription.EMPTY, [], .ok ()⟩ :=
  ⟨rfl, (add_on_closed_runs_at_once MySubscription.EMPTY { id := 1 } [] rfl).1,
    (add_on_closed_runs_at_once MySubscription.EMPTY { id := 1 } [] rfl).2.2.1⟩

/-- C20. After any sequence of steps of the iterator over any source (pulls, calls of the source
on its subscriber, `return()`, `throw(e)`), and after any sequence of handler and method
invocations made directly, the buffer and the queue of parked pulls are not both non-empty, and
no pull is parked once the iterator is completed or errored. -/
theorem bridge_never_buffers_and_parks (source : MyObservable) (steps : List IterStep)
    (events : List BridgeEvent) :
    (Bridge.run source steps {}).Consistent ∧ (events.foldl Bridge.handle {}).Consistent :=
  ⟨Bridge.run_consistent source steps {} ⟨Or.inl rfl, Or.inl rfl⟩,
    Bridge.handleAll_consistent events {} ⟨Or.inl rfl, Or.inl rfl⟩⟩

end RxPlayground
